import Mathlib

/-!
Verification development for the PyPi_GrowattServer client library.

The definitions below are a shallow embedding of the library's Python code
(growattServer/base_api.py, growattServer/open_api_v1.py,
growattServer/open_api_v1/devices/min.py, growattServer/__init__.py and the
register dump loop of examples/neo_800_example.py) into Lean.  Python JSON
values are modelled by the inductive type PyVal, dictionaries by association
lists in insertion order, stateful HTTP sessions by an explicit Session
record, raised exceptions by Except, and wall-clock sleeps by a numeric tag
carried in the step result.  Theorems at the end of the file settle the
specification claims against these definitions.
-/

namespace Growatt

/-- Model of a Python value as found in JSON request/response payloads:
None, bool, int, str, list and dict (association list in insertion order).
Floats do not occur in any of the code paths embedded here. -/
inductive PyVal where
  | none : PyVal
  | bool (b : Bool) : PyVal
  | int (n : Int) : PyVal
  | str (s : String) : PyVal
  | list (xs : List PyVal) : PyVal
  | dict (fields : List (String × PyVal)) : PyVal

/-- A Python dictionary with string keys, in insertion order. -/
abbrev PyDict := List (String × PyVal)

/-- Python dict lookup d[k] as an Option: first binding of the key. -/
def dictGet (d : PyDict) (k : String) : Option PyVal :=
  match d with
  | [] => Option.none
  | (k0, v) :: rest => if k0 = k then some v else dictGet rest k

/-- Python d.get(k, default). -/
def dictGetD (d : PyDict) (k : String) (dflt : PyVal) : PyVal :=
  (dictGet d k).getD dflt

/-- Python dict item assignment d[k] = v: overwrite the existing binding in
place, or append a new binding at the end (insertion order semantics). -/
def dictSet (d : PyDict) (k : String) (v : PyVal) : PyDict :=
  match d with
  | [] => [(k, v)]
  | (k0, v0) :: rest =>
      if k0 = k then (k0, v) :: rest else (k0, v0) :: dictSet rest k v

/-- Python d.update(items): successive item assignments. -/
def dictUpdate (d : PyDict) (items : List (String × PyVal)) : PyDict :=
  items.foldl (fun acc kv => dictSet acc kv.1 kv.2) d

/-- Python truthiness: None, False, 0, empty string and empty containers are
falsy, everything else is truthy. -/
def pyTruthy : PyVal → Bool
  | .none => false
  | .bool b => b
  | .int n => n != 0
  | .str s => s ≠ ""
  | .list xs => !xs.isEmpty
  | .dict fields => !fields.isEmpty

/-- Python equality comparison of a value with an int literal (bool compares
numerically, as in Python where True == 1; values of other types are never
equal to an int). -/
def pyIntEq (v : PyVal) (n : Int) : Bool :=
  match v with
  | .int m => m == n
  | .bool b => (if b then (1 : Int) else 0) == n
  | _ => false

/-- Python equality comparison of a value with a string literal. -/
def pyStrEq (v : PyVal) (s : String) : Bool :=
  match v with
  | .str t => t == s
  | _ => false

/-- Python single-character str.split, on character lists: splitting the
empty string yields one empty piece, and each separator occurrence starts a
new piece.  (Implemented on character lists so that it reduces inside the
kernel.) -/
def splitOnChar (sep : Char) : List Char → List (List Char)
  | [] => [[]]
  | c :: rest =>
      match splitOnChar sep rest with
      | [] => if c = sep then [[], [c]] else [[c]]
      | h :: t => if c = sep then [] :: h :: t else (c :: h) :: t

/-- Python s.split(sep) for a single-character separator. -/
def pySplit (s : String) (sep : Char) : List String :=
  (splitOnChar sep s.data).map String.mk

/-- Python s.startswith(p). -/
def strStartsWith (s p : String) : Bool :=
  p.data.isPrefixOf s.data

/-- Decimal digits of a natural number; helper for parsing. -/
def digitVal (c : Char) : Option Nat :=
  if c.isDigit then some (c.toNat - '0'.toNat) else Option.none

/-- Parse a non-empty run of decimal digits as a natural number. -/
def parseDigits : List Char → Option Nat
  | [] => Option.none
  | cs => cs.foldl
      (fun acc c =>
        match acc, digitVal c with
        | some n, some d => some (n * 10 + d)
        | _, _ => Option.none)
      (some 0)

/-- Model of the Python builtin int() applied to a string: an optional sign
followed by decimal digits.  (Surrounding whitespace and underscore digit
separators, which CPython also accepts, are not modelled; no value produced
by the embedded code paths uses them.)  Returns Option.none where Python
raises ValueError. -/
def pyStrToInt (s : String) : Option Int :=
  match s.data with
  | '-' :: rest => (parseDigits rest).map (fun n => -(n : Int))
  | '+' :: rest => (parseDigits rest).map (fun n => (n : Int))
  | cs => (parseDigits cs).map (fun n => (n : Int))

/-- Model of the Python builtin int() on a PyVal: ints pass through, bools
become 0/1, strings are parsed; None and containers raise TypeError and
unparsable strings raise ValueError, both modelled as Option.none (every
call site embedded here catches exactly these exceptions). -/
def pyToInt : PyVal → Option Int
  | .int n => some n
  | .bool b => some (if b then 1 else 0)
  | .str s => pyStrToInt s
  | _ => Option.none

/-- A scalar Python value, used where the embedded code applies the builtin
str() to caller-supplied data (write_parameter payload values). -/
inductive PyScalar where
  | str (s : String) : PyScalar
  | int (n : Int) : PyScalar
  | bool (b : Bool) : PyScalar
deriving DecidableEq, Repr

/-- Model of the Python builtin str() on scalar values. -/
def PyScalar.toPyStr : PyScalar → String
  | .str s => s
  | .int n => toString n
  | .bool b => if b then "True" else "False"

/-!
MD5 message digest (RFC 1321), needed by hash_password in
growattServer/base_api.py and growattServer/init.py, which call
hashlib.md5(password.encode(utf-8)).hexdigest().  All 32-bit machine
arithmetic is carried out on Nat with explicit reduction modulo 2^32.
-/

/-- Reduce a natural number modulo 2^32. -/
def w32 (n : Nat) : Nat := n % 4294967296

/-- Bitwise complement within 32 bits. -/
def bnot32 (x : Nat) : Nat := Nat.xor x 4294967295

/-- Rotate a 32-bit word left by s bits. -/
def rotl32 (x s : Nat) : Nat :=
  Nat.lor (w32 (Nat.shiftLeft x s)) (Nat.shiftRight x (32 - s))

/-- UTF-8 encoding of one character (RFC 3629); models str.encode of Python. -/
def utf8Bytes (c : Char) : List Nat :=
  let n := c.toNat
  if n < 128 then [n]
  else if n < 2048 then [192 + n / 64, 128 + n % 64]
  else if n < 65536 then [224 + n / 4096, 128 + n / 64 % 64, 128 + n % 64]
  else [240 + n / 262144, 128 + n / 4096 % 64, 128 + n / 64 % 64, 128 + n % 64]

/-- UTF-8 bytes of a string. -/
def strBytes (s : String) : List Nat := s.data.flatMap utf8Bytes

/-- MD5 padding: append bit 1, zeros to 56 mod 64 bytes, then the original
bit length as a 64-bit little-endian quantity. -/
def md5Pad (msg : List Nat) : List Nat :=
  let bitLen := (8 * msg.length) % 18446744073709551616
  let zeros := (119 - msg.length % 64) % 64
  msg ++ [128] ++ List.replicate zeros 0 ++
    (List.range 8).map (fun i => bitLen / 256 ^ i % 256)

/-- Split a byte list into 64-byte chunks. -/
def chunks64 (l : List Nat) : List (List Nat) :=
  if h : l = [] then [] else
    l.take 64 :: chunks64 (l.drop 64)
termination_by l.length
decreasing_by
  simp only [List.length_drop]
  have : 0 < l.length := List.length_pos.mpr h
  omega

/-- The 16 little-endian 32-bit words of one 64-byte chunk. -/
def chunkWords (chunk : List Nat) : List Nat :=
  (List.range 16).map (fun j =>
    chunk.getD (4 * j) 0 + 256 * chunk.getD (4 * j + 1) 0 +
      65536 * chunk.getD (4 * j + 2) 0 + 16777216 * chunk.getD (4 * j + 3) 0)

/-- The 64 MD5 round constants, floor(2^32 * abs(sin(i + 1))). -/
def md5K : List Nat :=
  [0xd76aa478, 0xe8c7b756, 0x242070db, 0xc1bdceee,
   0xf57c0faf, 0x4787c62a, 0xa8304613, 0xfd469501,
   0x698098d8, 0x8b44f7af, 0xffff5bb1, 0x895cd7be,
   0x6b901122, 0xfd987193, 0xa679438e, 0x49b40821,
   0xf61e2562, 0xc040b340, 0x265e5a51, 0xe9b6c7aa,
   0xd62f105d, 0x02441453, 0xd8a1e681, 0xe7d3fbc8,
   0x21e1cde6, 0xc33707d6, 0xf4d50d87, 0x455a14ed,
   0xa9e3e905, 0xfcefa3f8, 0x676f02d9, 0x8d2a4c8a,
   0xfffa3942, 0x8771f681, 0x6d9d6122, 0xfde5380c,
   0xa4beea44, 0x4bdecfa9, 0xf6bb4b60, 0xbebfbc70,
   0x289b7ec6, 0xeaa127fa, 0xd4ef3085, 0x04881d05,
   0xd9d4d039, 0xe6db99e5, 0x1fa27cf8, 0xc4ac5665,
   0xf4292244, 0x432aff97, 0xab9423a7, 0xfc93a039,
   0x655b59c3, 0x8f0ccc92, 0xffeff47d, 0x85845dd1,
   0x6fa87e4f, 0xfe2ce6e0, 0xa3014314, 0x4e0811a1,
   0xf7537e82, 0xbd3af235, 0x2ad7d2bb, 0xeb86d391]

/-- The 64 MD5 per-round left-rotation amounts. -/
def md5S : List Nat :=
  [7, 12, 17, 22, 7, 12, 17, 22, 7, 12, 17, 22, 7, 12, 17, 22,
   5, 9, 14, 20, 5, 9, 14, 20, 5, 9, 14, 20, 5, 9, 14, 20,
   4, 11, 16, 23, 4, 11, 16, 23, 4, 11, 16, 23, 4, 11, 16, 23,
   6, 10, 15, 21, 6, 10, 15, 21, 6, 10, 15, 21, 6, 10, 15, 21]

/-- One of the 64 MD5 operations, acting on the running state (a, b, c, d)
with message words m. -/
def md5Op (m : List Nat) (st : Nat × Nat × Nat × Nat) (i : Nat) :
    Nat × Nat × Nat × Nat :=
  let (a, b, c, d) := st
  let f :=
    if i < 16 then Nat.lor (Nat.land b c) (Nat.land (bnot32 b) d)
    else if i < 32 then Nat.lor (Nat.land d b) (Nat.land (bnot32 d) c)
    else if i < 48 then Nat.xor b (Nat.xor c d)
    else Nat.xor c (Nat.lor b (bnot32 d))
  let g :=
    if i < 16 then i
    else if i < 32 then (5 * i + 1) % 16
    else if i < 48 then (3 * i + 5) % 16
    else (7 * i) % 16
  let newB :=
    w32 (b + rotl32 (w32 (a + f + md5K.getD i 0 + m.getD g 0)) (md5S.getD i 0))
  (d, newB, b, c)

/-- Process one 64-byte chunk, updating the four state words. -/
def md5Chunk (st : Nat × Nat × Nat × Nat) (chunk : List Nat) :
    Nat × Nat × Nat × Nat :=
  let m := chunkWords chunk
  let (a, b, c, d) := (List.range 64).foldl (md5Op m) st
  let (a0, b0, c0, d0) := st
  (w32 (a0 + a), w32 (b0 + b), w32 (c0 + c), w32 (d0 + d))

/-- Little-endian byte decomposition of a 32-bit word. -/
def wordBytesLE (x : Nat) : List Nat :=
  [x % 256, x / 256 % 256, x / 65536 % 256, x / 16777216 % 256]

/-- The final MD5 state over all chunks of the padded message. -/
def md5State (msg : List Nat) : Nat × Nat × Nat × Nat :=
  (chunks64 (md5Pad msg)).foldl md5Chunk
    (0x67452301, 0xefcdab89, 0x98badcfe, 0x10325476)

/-- The 16 digest bytes of the MD5 of a byte message. -/
def md5Bytes (msg : List Nat) : List Nat :=
  wordBytesLE (md5State msg).1 ++ wordBytesLE (md5State msg).2.1 ++
    wordBytesLE (md5State msg).2.2.1 ++ wordBytesLE (md5State msg).2.2.2

/-- Lowercase hexadecimal digit for a nibble. -/
def hexDigit (n : Nat) : Char :=
  "0123456789abcdef".data.getD n '?'

/-- Lowercase hex rendering of a byte list, two characters per byte. -/
def bytesToHexChars : List Nat → List Char
  | [] => []
  | b :: bs => hexDigit (b / 16) :: hexDigit (b % 16) :: bytesToHexChars bs

/-- The MD5 hex digest of the UTF-8 encoding of a string, as produced by
hashlib.md5(s.encode(utf-8)).hexdigest() in Python. -/
def md5HexChars (s : String) : List Char :=
  bytesToHexChars (md5Bytes (strBytes s))

/-!
hash_password, from growattServer/base_api.py lines 15-23 (identical logic
in growattServer/init.py lines 19-36).
-/

/-- The index sequence range(0, n, 2) of Python. -/
def pyRangeStep2 (n : Nat) : List Nat :=
  (List.range ((n + 1) / 2)).map (fun k => 2 * k)

/-- The loop body of hash_password: for each index i in turn, if the
character at i is the digit 0, splice in the letter c at that position
(string slicing reassembly modelled by List.set, which the slicing is
extensionally equal to). -/
def replaceZeroLoop (cs : List Char) : List Nat → List Char
  | [] => cs
  | i :: rest =>
      replaceZeroLoop (if cs.getD i 'x' = '0' then cs.set i 'c' else cs) rest

/-- Embedding of hash_password: normal MD5 hex digest, except each digit 0
sitting at an even index is replaced by the letter c. -/
def hash_password (password : String) : String :=
  let password_md5 := md5HexChars password
  String.mk (replaceZeroLoop password_md5 (pyRangeStep2 password_md5.length))

/-!
Exceptions (growattServer/exceptions.py) and the HTTP session model
(growattServer/base_api.py lines 32-52, growattServer/open_api_v1.py lines
24-54).  A Session records an identity tag (so that theorems can speak
about which session object a request went through), its installed headers
and its response hook.  Raised exceptions are modelled with Except.
-/

/-- The custom exceptions of the library: GrowattParameterError and
GrowattV1ApiError with its message, error_code and error_msg payload. -/
inductive GrowattError where
  | parameterError (message : String) : GrowattError
  | v1ApiError (message : String) (error_code : Option PyVal)
      (error_msg : PyVal) : GrowattError

/-- The HTTPError of the requests library, carrying the status code. -/
inductive HTTPError where
  | httpError (status_code : Nat) : HTTPError
deriving DecidableEq, Repr

/-- A raw HTTP response: status code and parsed JSON body. -/
structure HttpResponse where
  status_code : Nat
  jsonBody : PyVal

/-- Model of requests.Response.raise_for_status: raise HTTPError exactly
when the status code is in the 4XX or 5XX range (400 <= code < 600), as
documented by the requests library. -/
def raise_for_status (r : HttpResponse) : Except HTTPError Unit :=
  if 400 ≤ r.status_code ∧ r.status_code < 600 then
    .error (.httpError r.status_code)
  else .ok ()

/-- A requests.Session as configured by this library: an identity tag, the
installed headers (a dict updated in place) and the response hook. -/
structure Session where
  sid : Nat
  headers : List (String × String)
  responseHook : HttpResponse → Except HTTPError Unit

/-- String-dict item assignment, same semantics as dictSet. -/
def headersSet (d : List (String × String)) (k v : String) :
    List (String × String) :=
  match d with
  | [] => [(k, v)]
  | (k0, v0) :: rest =>
      if k0 = k then (k0, v) :: rest else (k0, v0) :: headersSet rest k v

/-- Python dict.update on string dicts. -/
def headersUpdate (d : List (String × String))
    (items : List (String × String)) : List (String × String) :=
  items.foldl (fun acc kv => headersSet acc kv.1 kv.2) d

/-- The default user agent string of GrowattApi. -/
def defaultAgentIdentifier : String :=
  "Dalvik/2.1.0 (Linux; U; Android 12; https://github.com/indykoning/PyPi_GrowattServer)"

/-- Embedding of GrowattApi.init (base_api.py lines 36-52): resolve the
agent identifier, optionally append the random 5-digit suffix (passed in
explicitly since the embedding is deterministic), create one fresh session,
install the raise_for_status response hook and the User-Agent header.
Returns the session together with the number of session objects created. -/
def growattApi_init (agent_identifier : Option String)
    (randomSuffix : Option String) : Session × Nat :=
  let agent0 := agent_identifier.getD defaultAgentIdentifier
  let agent :=
    match randomSuffix with
    | some r => agent0 ++ " - " ++ r
    | Option.none => agent0
  ({ sid := 0
     headers := headersUpdate [] [("User-Agent", agent)]
     responseHook := fun response => raise_for_status response }, 1)

/-- Embedding of OpenApiV1.init (open_api_v1.py lines 40-54): call the base
constructor with the platform-derived user agent (passed in explicitly),
then install the token header on the same session.  No further session is
created. -/
def openApiV1_init (userAgent : String) (token : String) : Session × Nat :=
  let (base, created) := growattApi_init (some userAgent) Option.none
  ({ base with headers := headersUpdate base.headers [("token", token)] },
   created)

/-- An HTTP request as issued by the embedded methods: the identity tag of
the session it was sent through, the endpoint page and the form data or
query params (PyVal values, as handed to the requests library). -/
structure Request where
  sid : Nat
  url : String
  data : List (String × PyVal)

/-- Issue of a request through a session (session.get or session.post):
tags the request with the session identity. -/
def sessionPost (s : Session) (url : String)
    (data : List (String × PyVal)) : Request :=
  { sid := s.sid, url := url, data := data }

/-- Model of the requests dispatch path for a configured session: the raw
response is passed to the installed response hook before it is handed back
to the calling method; a hook exception propagates. -/
def sessionReceive (s : Session) (raw : HttpResponse) :
    Except HTTPError HttpResponse :=
  match s.responseHook raw with
  | .error e => .error e
  | .ok _ => .ok raw

/-- A generic library method viewed at the transport level: send a request,
receive the raw response through the session (hook included), then shape
the parsed JSON body.  Every GrowattApi method has this form. -/
def apiCall (s : Session) (req : Request)
    (server : Request → HttpResponse) (shape : PyVal → PyVal) :
    Except HTTPError PyVal :=
  match sessionReceive s (server req) with
  | .error e => .error e
  | .ok r => .ok (shape r.jsonBody)

/-!
The V1 response processor, from OpenApiV1 of open_api_v1.py lines 56-76;
the process_response method of open_api_v1/init.py lines 61-83 is
line-for-line the same logic.
-/

/-- Embedding of OpenApiV1 process_response: raise GrowattV1ApiError when
response.get(error_code, 1) != 0, otherwise return response.get(data),
which is None when the key is absent. -/
def process_response (response : PyDict) (operation_name : String) :
    Except GrowattError PyVal :=
  if !(pyIntEq (dictGetD response "error_code" (.int 1)) 0) then
    .error (.v1ApiError ("Error during " ++ operation_name)
      (dictGet response "error_code")
      (dictGetD response "error_msg" (.str "Unknown error")))
  else
    .ok (dictGetD response "data" .none)

/-!
Login, from GrowattApi.login in base_api.py lines 75-149.  The method posts
userName and the (possibly freshly hashed) password to newTwoLoginAPI.do,
takes the back object out of the JSON response, and on success augments it
with userId and userLevel derived from the nested user object.  Subscript
access and dict update are embedded in the Except monad (KeyError for a
missing key, TypeError for subscripting a non-dict), matching the Python
exceptions these operations would raise.
-/

/-- Python runtime errors that the embedded JSON manipulation can raise. -/
inductive PyErr where
  | keyError (k : String) : PyErr
  | typeError : PyErr
  | valueError : PyErr
  | attributeError : PyErr
deriving DecidableEq, Repr

/-- Python subscript v[k] on a JSON value. -/
def pyGetItem (v : PyVal) (k : String) : Except PyErr PyVal :=
  match v with
  | .dict fields =>
      match dictGet fields k with
      | some x => .ok x
      | Option.none => .error (.keyError k)
  | _ => .error .typeError

/-- Python v.update(items) on a JSON value, a TypeError unless v is a dict. -/
def pyUpdate (v : PyVal) (items : List (String × PyVal)) :
    Except PyErr PyVal :=
  match v with
  | .dict fields => .ok (.dict (dictUpdate fields items))
  | _ => .error .typeError

/-- Embedding of GrowattApi.login.  The server is an oracle from requests
to parsed JSON bodies; the returned list is the trace of requests issued
through the given session. -/
def login (s : Session) (username password : String)
    (is_password_hashed : Bool) (server : Request → PyVal) :
    List Request × Except PyErr PyVal :=
  let pw := if is_password_hashed then password else hash_password password
  let req := sessionPost s "newTwoLoginAPI.do"
    [("userName", .str username), ("password", .str pw)]
  let response := server req
  ([req],
    match pyGetItem response "back" with
    | .error e => .error e
    | .ok data =>
      match pyGetItem data "success" with
      | .error e => .error e
      | .ok success =>
        if pyTruthy success then
          match pyGetItem data "user" with
          | .error e => .error e
          | .ok user =>
            match pyGetItem user "id" with
            | .error e => .error e
            | .ok uid =>
              match pyGetItem user "rightlevel" with
              | .error e => .error e
              | .ok lvl => pyUpdate data [("userId", uid), ("userLevel", lvl)]
        else .ok data)

/-!
Energy history, from OpenApiV1.min_energy_history (open_api_v1.py lines
316-361) and OpenApiV1.sph_energy_history (lines 712-757); the package
variant Min.energy_history (open_api_v1/devices/min.py lines 65-110) is the
same logic.  Dates are modelled as day ordinals (Int), so that the Python
timedelta comparison end_date - start_date > timedelta(days=7) becomes an
integer comparison; strftime rendering of a date inside the request body is
abstracted to the ordinal itself, which no claim inspects.  The server
oracle yields the parsed JSON response dictionary for a request.
-/

/-- The date-defaulting preamble shared by the two methods: both bounds
default to today, and a single missing bound defaults to the other. -/
def resolveDates (today : Int) (start_date end_date : Option Int) :
    Int × Int :=
  match start_date, end_date with
  | Option.none, Option.none => (today, today)
  | Option.none, some e => (e, e)
  | some s, Option.none => (s, s)
  | some s, some e => (s, e)

/-- Embedding of min_energy_history: default the dates, raise
GrowattParameterError when the interval exceeds 7 days (before any request
is issued), otherwise post to device/tlx/tlx_data and process the response.
Returns the trace of issued requests alongside the result. -/
def min_energy_history (s : Session) (today : Int) (device_sn : String)
    (start_date end_date : Option Int) (timezone page limit : PyVal)
    (server : Request → PyDict) :
    List Request × Except GrowattError PyVal :=
  let sd := (resolveDates today start_date end_date).1
  let ed := (resolveDates today start_date end_date).2
  if ed - sd > 7 then
    ([], .error (.parameterError "date interval must not exceed 7 days"))
  else
    let req := sessionPost s "device/tlx/tlx_data"
      [("tlx_sn", .str device_sn), ("start_date", .int sd),
       ("end_date", .int ed), ("timezone_id", timezone),
       ("page", page), ("perpage", limit)]
    ([req], process_response (server req) "getting MIN inverter energy history")

/-- Embedding of sph_energy_history, identical to min_energy_history except
for the endpoint and the serial-number key. -/
def sph_energy_history (s : Session) (today : Int) (device_sn : String)
    (start_date end_date : Option Int) (timezone page limit : PyVal)
    (server : Request → PyDict) :
    List Request × Except GrowattError PyVal :=
  let sd := (resolveDates today start_date end_date).1
  let ed := (resolveDates today start_date end_date).2
  if ed - sd > 7 then
    ([], .error (.parameterError "date interval must not exceed 7 days"))
  else
    let req := sessionPost s "device/mix/mix_data"
      [("mix_sn", .str device_sn), ("start_date", .int sd),
       ("end_date", .int ed), ("timezone_id", timezone),
       ("page", page), ("perpage", limit)]
    ([req], process_response (server req) "getting SPH inverter energy history")

/-!
Parameter writing, from OpenApiV1.min_write_parameter (open_api_v1.py lines
437-493) and OpenApiV1.sph_write_parameter (lines 805-861); the package
variant Min.write_parameter (open_api_v1/devices/min.py lines 181-238) is
the same logic with the same 19-parameter limit.
-/

/-- A Python dict key as used in a parameter_values dictionary: an int
(bools being ints in Python as well, they are covered by the int case) or a
string to be converted with int(). -/
inductive PKey where
  | int (n : Int) : PKey
  | str (s : String) : PKey
deriving DecidableEq, Repr

/-- The pos = int(pos) if not isinstance(pos, int) else pos conversion; a
non-numeric string key raises ValueError (uncaught in the source). -/
def keyPos : PKey → Except PyErr Int
  | .int n => .ok n
  | .str s =>
      match pyStrToInt s with
      | some n => .ok n
      | Option.none => .error .valueError

/-- The parameter_values argument of write_parameter: None, a scalar, a
list of scalars, or a dict from positions to scalars.  (The isinstance
dispatch in the source recognises exactly str, int, float, bool, list and
dict; floats and nested containers do not occur in any claim.) -/
inductive ParamValues where
  | none : ParamValues
  | scalar (v : PyScalar) : ParamValues
  | list (vs : List PyScalar) : ParamValues
  | dict (entries : List (PKey × PyScalar)) : ParamValues

/-- The list branch: for i, value in enumerate(parameter_values, 1), assign
parameters i when i does not exceed the parameter count. -/
def fillListLoop (maxParams : Nat) : Nat → List PyScalar → List String → List String
  | _, [], params => params
  | i, v :: rest, params =>
      fillListLoop maxParams (i + 1) rest
        (if i ≤ maxParams then params.set (i - 1) v.toPyStr else params)

/-- The list branch of write_parameter, starting the enumeration at 1 on
the freshly initialised table. -/
def fillFromList (maxParams : Nat) (vs : List PyScalar) : List String :=
  fillListLoop maxParams 1 vs (List.replicate maxParams "")

/-- The dict branch: convert each key to a position and assign it when it
lies between 1 and the parameter count, ignoring it otherwise. -/
def fillFromDict (maxParams : Nat) :
    List (PKey × PyScalar) → List String → Except PyErr (List String)
  | [], params => .ok params
  | (k, v) :: rest, params =>
      match keyPos k with
      | .error e => .error e
      | .ok pos =>
          fillFromDict maxParams rest
            (if 1 ≤ pos ∧ pos ≤ (maxParams : Int) then
              params.set (pos - 1).toNat v.toPyStr
            else params)

/-- The parameter table construction of write_parameter: initialise all
positions to the empty string, then fill from the given value shape.  The
table is indexed from 0; entry i holds the value of param(i+1). -/
def fillParameters (maxParams : Nat) :
    ParamValues → Except PyErr (List String)
  | .none => .ok (List.replicate maxParams "")
  | .scalar v => .ok ((List.replicate maxParams "").set 0 v.toPyStr)
  | .list vs => .ok (fillFromList maxParams vs)
  | .dict entries => fillFromDict maxParams entries (List.replicate maxParams "")

/-- Errors a V1 method can raise: a Python runtime error from argument
processing or a library error from response processing. -/
inductive ApiErr where
  | py (e : PyErr) : ApiErr
  | growatt (e : GrowattError) : ApiErr

/-- Embedding of min_write_parameter: build the full request body with the
device serial, the setting type and all 19 param entries, post it to tlxSet
and process the response. -/
def min_write_parameter (s : Session) (device_sn parameter_id : String)
    (parameter_values : ParamValues) (server : Request → PyDict) :
    List Request × Except ApiErr PyVal :=
  match fillParameters 19 parameter_values with
  | .error e => ([], .error (.py e))
  | .ok params =>
      let request_data :=
        [("tlx_sn", PyVal.str device_sn), ("type", PyVal.str parameter_id)] ++
          (List.range 19).map
            (fun i => ("param" ++ toString (i + 1), PyVal.str (params.getD i "")))
      let req := sessionPost s "tlxSet" request_data
      ([req],
       match process_response (server req)
           ("writing parameter " ++ parameter_id) with
       | .error e => .error (.growatt e)
       | .ok v => .ok v)

/-- Embedding of sph_write_parameter, identical to min_write_parameter
except for the serial-number key and the endpoint. -/
def sph_write_parameter (s : Session) (device_sn parameter_id : String)
    (parameter_values : ParamValues) (server : Request → PyDict) :
    List Request × Except ApiErr PyVal :=
  match fillParameters 19 parameter_values with
  | .error e => ([], .error (.py e))
  | .ok params =>
      let request_data :=
        [("mix_sn", PyVal.str device_sn), ("type", PyVal.str parameter_id)] ++
          (List.range 19).map
            (fun i => ("param" ++ toString (i + 1), PyVal.str (params.getD i "")))
      let req := sessionPost s "mixSet" request_data
      ([req],
       match process_response (server req)
           ("writing parameter " ++ parameter_id) with
       | .error e => .error (.growatt e)
       | .ok v => .ok v)

/-!
Time-of-use segment reading, from OpenApiV1.min_read_time_segments
(open_api_v1.py lines 548-660); the package variant Min.read_time_segments
(open_api_v1/devices/min.py lines 299-411) is the same logic.  The
settings_data argument is taken as given (the source fetches it with
min_settings only when the caller does not supply it).
-/

/-- One parsed time segment record. -/
structure Segment where
  segment_id : Nat
  batt_mode : Option Int
  mode_name : String
  start_time : String
  end_time : String
  enabled : Bool
deriving DecidableEq, Repr

/-- Python format spec 02d: decimal rendering left-padded with zeros to
width two. -/
def fmt02 (n : Int) : String :=
  if 0 ≤ n ∧ n < 10 then "0" ++ toString n else toString n

/-- The time-field normalisation and formatting of min_read_time_segments:
treat the string null and falsy values as 0:0, split on the colon, parse
the first two components with int() and render them as 02d fields;
a ValueError or IndexError yields the default 00:00.  A present, truthy,
non-string value raises AttributeError at the split call (uncaught in the
source). -/
def formatTimeField (raw : PyVal) : Except PyErr String :=
  let raw := if pyStrEq raw "null" || !pyTruthy raw then PyVal.str "0:0" else raw
  match raw with
  | .str s =>
      let parts := pySplit s ':'
      .ok
        (match parts.get? 0, parts.get? 1 with
         | some p0, some p1 =>
             match pyStrToInt p0, pyStrToInt p1 with
             | some h, some m => fmt02 h ++ ":" ++ fmt02 m
             | _, _ => "00:00"
         | _, _ => "00:00")
  | _ => .error .attributeError

/-- The batt_mode extraction: absent or null yields None, otherwise int()
applied to the raw value with ValueError and TypeError yielding None. -/
def parseBattMode (settings : PyDict) (i : Nat) : Option Int :=
  match dictGetD settings ("time" ++ toString i ++ "Mode") .none with
  | .none => Option.none
  | raw => if pyStrEq raw "null" then Option.none else pyToInt raw

/-- The enabled extraction: default 0, null and None yield false, otherwise
int() == 1 with ValueError and TypeError yielding false. -/
def parseEnabled (settings : PyDict) (i : Nat) : Bool :=
  match dictGetD settings ("forcedStopSwitch" ++ toString i) (.int 0) with
  | .none => false
  | raw =>
      if pyStrEq raw "null" then false
      else
        match pyToInt raw with
        | some n => n == 1
        | Option.none => false

/-- The mode_names dictionary lookup with default Unknown. -/
def modeName : Option Int → String
  | some 0 => "Load First"
  | some 1 => "Battery First"
  | some 2 => "Grid First"
  | _ => "Unknown"

/-- One iteration of the segment loop of min_read_time_segments. -/
def readTimeSegment (settings : PyDict) (i : Nat) : Except PyErr Segment :=
  match formatTimeField
      (dictGetD settings ("forcedTimeStart" ++ toString i) (.str "0:0")) with
  | .error e => .error e
  | .ok start_time =>
    match formatTimeField
        (dictGetD settings ("forcedTimeStop" ++ toString i) (.str "0:0")) with
    | .error e => .error e
    | .ok end_time =>
      let batt_mode := parseBattMode settings i
      .ok
        { segment_id := i
          batt_mode := batt_mode
          mode_name := modeName batt_mode
          start_time := start_time
          end_time := end_time
          enabled := parseEnabled settings i }

/-- The segment loop: build the records for the given indices in order,
aborting on the first raised exception. -/
def segmentsLoop (settings : PyDict) : List Nat → Except PyErr (List Segment)
  | [] => .ok []
  | i :: rest =>
      match readTimeSegment settings i with
      | .error e => .error e
      | .ok seg =>
          match segmentsLoop settings rest with
          | .error e => .error e
          | .ok others => .ok (seg :: others)

/-- Embedding of min_read_time_segments on supplied settings data: parse
segments 1 through 9. -/
def min_read_time_segments (settings_data : PyDict) :
    Except PyErr (List Segment) :=
  segmentsLoop settings_data ((List.range 9).map (fun k => k + 1))

/-!
The inverter register reader: GrowattApi.read_inverter_registers from
growattServer/init.py lines 3677-3787 and the register dump loop of
examples/neo_800_example.py lines 1348-1390.  The server is an oracle from
a queried address range to the JSON response of newTcpsetAPI.do, of which
the fields consulted by the code are the result flag, the msg string and
the dash-separated register values in obj.param1.  The while loop is run
on explicit fuel, since with a server that keeps answering 500 the Python
loop never terminates; sleeps are reported in tenths of a second.
-/

/-- The fields of the newTcpsetAPI.do response consulted by
read_inverter_registers. -/
structure TcpsetResponse where
  result : Option Int
  msg : Option String
  param1 : Option String

/-- The result dictionary of read_inverter_registers. -/
structure RegistersDict where
  success : Bool
  error_message : String
  register : List (Nat × String)
deriving DecidableEq, Repr

/-- Embedding of GrowattApi.read_inverter_registers (response-processing
part): success is result == 1; the error message annotates the 501 and 500
codes; on success the register dict zips the inclusive address range
start..end with the dash-separated values of obj.param1. -/
def read_inverter_registers (register_address_start : Nat)
    (register_address_end : Nat) (resp : TcpsetResponse) : RegistersDict :=
  let success := resp.result == some 1
  let msg0 := resp.msg.getD ""
  let error_message :=
    if msg0 = "501" then msg0 ++ " inverter offline"
    else if msg0 = "500" then
      let m := msg0 ++ " timeout or inverter offline"
      if register_address_end - register_address_start > 1 then
        m ++ " - try querying less registers at once"
      else m
    else msg0
  let register :=
    if success then
      (List.range' register_address_start
        (register_address_end + 1 - register_address_start)).zip
        (pySplit (resp.param1.getD "") '-')
    else []
  { success := success, error_message := error_message, register := register }

/-- Nat-keyed dict item assignment, insertion-order semantics. -/
def natDictSet (d : List (Nat × String)) (k : Nat) (v : String) :
    List (Nat × String) :=
  match d with
  | [] => [(k, v)]
  | (k0, v0) :: rest =>
      if k0 = k then (k0, v) :: rest else (k0, v0) :: natDictSet rest k v

/-- Nat-keyed dict update. -/
def natDictUpdate (d items : List (Nat × String)) : List (Nat × String) :=
  items.foldl (fun acc kv => natDictSet acc kv.1 kv.2) d

/-- Nat-keyed dict lookup. -/
def natDictGet (d : List (Nat × String)) (k : Nat) : Option String :=
  match d with
  | [] => Option.none
  | (k0, v) :: rest => if k0 = k then some v else natDictGet rest k

/-- The mutable state of the register dump loop. -/
structure DumpState where
  query_start : Nat
  chunk_size : Nat
  register_result : List (Nat × String)
deriving DecidableEq, Repr

/-- Outcome of one iteration of the inner while loop: continue with a new
state after sleeping the given number of tenths of a second, or leave the
loop with a register read error. -/
inductive StepResult where
  | next (st : DumpState) (sleepTenths : Nat) : StepResult
  | abort (st : DumpState) (register_read_error : String) : StepResult
deriving DecidableEq, Repr

/-- One iteration of the while body of the register dump loop
(neo_800_example.py lines 1363-1389): query the chunk from query_start to
min(query_start + chunk_size, register_end); on success merge the returned
registers and advance to query_end; on an error message starting with 500
set the chunk size to max(chunk_size // 2, 10), sleeping 30 seconds and
keeping everything unchanged when that is no change; on any other error
leave the loop with the error recorded. -/
def dumpStep (server : Nat → Nat → TcpsetResponse) (register_end : Nat)
    (st : DumpState) : StepResult :=
  let query_end := min (st.query_start + st.chunk_size) register_end
  let registers_dict :=
    read_inverter_registers st.query_start query_end
      (server st.query_start query_end)
  if registers_dict.success then
    .next
      { st with
        register_result :=
          natDictUpdate st.register_result registers_dict.register
        query_start := query_end } 1
  else if strStartsWith registers_dict.error_message "500" then
    let new_chunk_size := max (st.chunk_size / 2) 10
    if new_chunk_size = st.chunk_size then
      .next st 300
    else
      .next { st with chunk_size := new_chunk_size } 3
  else
    .abort st ("failed to read registers: " ++ registers_dict.error_message)

/-- The while loop of one register range, on fuel: while query_start is
strictly below register_end, run the body; Option.none reports exhausted
fuel (the Python loop still running after that many iterations).  The
err argument threads the register_read_error variable of the script. -/
def runRange (server : Nat → Nat → TcpsetResponse) (register_end : Nat) :
    Nat → DumpState → Option String → Option (DumpState × Option String)
  | 0, _, _ => Option.none
  | fuel + 1, st, err =>
      if st.query_start < register_end then
        match dumpStep server register_end st with
        | .next st2 _ => runRange server register_end fuel st2 err
        | .abort st2 e => some (st2, some e)
      else some (st, err)

/-- The outer for loop of the register dump: for each configured range,
reset query_start to the range start and chunk_size to the full range
width, then run the while loop, carrying the accumulated register_result
dict and error variable across ranges. -/
def runDump (server : Nat → Nat → TcpsetResponse) (fuel : Nat) :
    List (Nat × Nat) → List (Nat × String) → Option String →
    Option (List (Nat × String) × Option String)
  | [], reg, err => some (reg, err)
  | (register_start, register_end) :: rest, reg, err =>
      let st : DumpState :=
        { query_start := register_start
          chunk_size := register_end - register_start + 1
          register_result := reg }
      match runRange server register_end fuel st err with
      | Option.none => Option.none
      | some (st2, err2) => runDump server fuel rest st2.register_result err2

/-- The configured register ranges of the dump (neo_800_example.py lines
1348-1352). -/
def register_ranges : List (Nat × Nat) :=
  [(0, 124), (125, 179), (180, 188), (201, 203), (209, 223), (229, 229),
   (230, 242), (304, 345), (532, 554), (600, 612), (660, 660), (1000, 1038),
   (1044, 1044), (1047, 1048), (1060, 1062), (1070, 1071), (1080, 1092),
   (1100, 1121), (1125, 1204), (1244, 1249), (3000, 3059), (3070, 3071),
   (3079, 3082), (3085, 3114), (3125, 3238)]

/-- A well-behaved always-online server: every query succeeds and obj.param1
carries one value per queried register. -/
def constSuccessServer : Nat → Nat → TcpsetResponse := fun s e =>
  { result := some 1
    msg := Option.none
    param1 := some (String.intercalate "-" (List.replicate (e + 1 - s) "7")) }

/-!
Specification-side predicates, written from the wording of the claims, to
be compared with the embedded code.
-/

/-- The raising condition of the V1 response processor as the specification
words it: the error_code entry of the response is nonzero, a missing
error_code being treated as the (nonzero) error code 1. -/
def v1ErrorCondition (response : PyDict) : Prop :=
  match dictGet response "error_code" with
  | Option.none => True
  | some v => ¬ pyIntEq v 0 = true

/-- The too-long-interval condition of the energy history specification:
after defaulting a missing bound to today or to the other bound, the end
date minus the start date exceeds 7 days. -/
def intervalTooLong (today : Int) (start_date end_date : Option Int) : Prop :=
  (resolveDates today start_date end_date).2 -
    (resolveDates today start_date end_date).1 > 7

/-- Whether a string has the shape HH:MM: exactly five characters, a colon
in the middle and decimal digits elsewhere. -/
def isHHMM (s : String) : Bool :=
  s.length == 5 && (s.data.getD 0 'x').isDigit && (s.data.getD 1 'x').isDigit
    && s.data.getD 2 'x' == ':' && (s.data.getD 3 'x').isDigit
    && (s.data.getD 4 'x').isDigit

/-!
Claim C3: the V1 response processor raises exactly on nonzero (or missing)
error_code and otherwise returns the data field.
-/

/-- C3: for every response dictionary, process_response raises
GrowattV1ApiError if and only if the error_code entry is nonzero (a
missing error_code being treated as error code 1), and otherwise returns
the data field of the response, None when that field is absent. -/
theorem process_response_raises_iff (response : PyDict)
    (operation_name : String) :
    ((∃ msg code emsg, process_response response operation_name =
        .error (.v1ApiError msg code emsg)) ↔ v1ErrorCondition response) ∧
    (¬ v1ErrorCondition response →
      process_response response operation_name =
        .ok (dictGetD response "data" .none)) := by
  unfold process_response v1ErrorCondition dictGetD
  cases h : dictGet response "error_code" with
  | none => simp [pyIntEq]
  | some v => cases hv : pyIntEq v 0 <;> simp [hv]

/-- Witness for C3 at a concrete successful response. -/
theorem process_response_witness :
    process_response [("error_code", PyVal.int 0), ("data", PyVal.str "ok")]
      "getting plant list" = .ok (PyVal.str "ok") := by
  have h := process_response_raises_iff
    [("error_code", PyVal.int 0), ("data", PyVal.str "ok")] "getting plant list"
  exact h.2 (by simp [v1ErrorCondition, dictGet, pyIntEq])

/-!
Claim C4: every response travels through the raise_for_status response hook
installed by the constructor, so 4XX/5XX responses raise HTTPError before
any shaping of the body.
-/

/-- C4: the session built by the GrowattApi constructor carries
raise_for_status as its response hook, and any method call whose server
response has a 4XX or 5XX status code yields HTTPError regardless of the
result-shaping function, i.e. before any JSON result shaping happens. -/
theorem session_hook_raises_on_4xx_5xx (agent_identifier : Option String)
    (randomSuffix : Option String) (req : Request)
    (server : Request → HttpResponse) (shape : PyVal → PyVal)
    (h4 : 400 ≤ (server req).status_code)
    (h6 : (server req).status_code < 600) :
    (growattApi_init agent_identifier randomSuffix).1.responseHook =
      raise_for_status ∧
    apiCall (growattApi_init agent_identifier randomSuffix).1 req server
      shape = .error (.httpError (server req).status_code) := by
  refine ⟨rfl, ?_⟩
  unfold apiCall sessionReceive growattApi_init raise_for_status
  simp only
  rw [if_pos ⟨h4, h6⟩]

/-- Witness for C4 at a concrete 500 response. -/
theorem session_hook_witness :
    apiCall (growattApi_init Option.none Option.none).1
      { sid := 0, url := "PlantListAPI.do", data := [] }
      (fun _ => { status_code := 500, jsonBody := .none }) (fun v => v) =
      .error (.httpError 500) :=
  (session_hook_raises_on_4xx_5xx Option.none Option.none
    { sid := 0, url := "PlantListAPI.do", data := [] }
    (fun _ => { status_code := 500, jsonBody := .none }) (fun v => v)
    (by norm_num) (by norm_num)).2

/-!
Claim C8: the energy history methods raise GrowattParameterError exactly on
intervals longer than 7 days, before any request is issued.
-/

/-- The response processor never produces a GrowattParameterError. -/
theorem process_response_no_parameter_error (response : PyDict)
    (operation_name : String) (m : String) :
    process_response response operation_name ≠ .error (.parameterError m) := by
  unfold process_response
  split <;> simp

/-- C8: for both min_energy_history and sph_energy_history, when the
resolved interval exceeds 7 days the method raises GrowattParameterError
and issues no HTTP request, and when the interval is 7 days or shorter no
GrowattParameterError is raised. -/
theorem energy_history_interval_guard (s : Session) (today : Int)
    (device_sn : String) (start_date end_date : Option Int)
    (timezone page limit : PyVal) (server : Request → PyDict) :
    (intervalTooLong today start_date end_date →
      min_energy_history s today device_sn start_date end_date timezone
          page limit server =
        ([], .error (.parameterError "date interval must not exceed 7 days")) ∧
      sph_energy_history s today device_sn start_date end_date timezone
          page limit server =
        ([], .error (.parameterError "date interval must not exceed 7 days"))) ∧
    (¬ intervalTooLong today start_date end_date →
      (∀ m, (min_energy_history s today device_sn start_date end_date
          timezone page limit server).2 ≠ .error (.parameterError m)) ∧
      (∀ m, (sph_energy_history s today device_sn start_date end_date
          timezone page limit server).2 ≠ .error (.parameterError m))) := by
  unfold min_energy_history sph_energy_history intervalTooLong
  constructor
  · intro h
    rw [if_pos h, if_pos h]
    exact ⟨rfl, rfl⟩
  · intro h
    rw [if_neg h, if_neg h]
    exact ⟨fun m => process_response_no_parameter_error _ _ m,
           fun m => process_response_no_parameter_error _ _ m⟩

/-- Witness for C8: an 8-day interval raises without sending, a 7-day
interval does not raise the parameter error. -/
theorem energy_history_interval_witness :
    (min_energy_history ⟨0, [], fun _ => .ok ()⟩ 0 "SN" (some 0) (some 8)
      .none .none .none (fun _ => [])) =
      ([], .error (.parameterError "date interval must not exceed 7 days")) ∧
    (∀ m, (min_energy_history ⟨0, [], fun _ => .ok ()⟩ 0 "SN" (some 0)
      (some 7) .none .none .none (fun _ => [])).2 ≠
        .error (.parameterError m)) := by
  constructor
  · exact ((energy_history_interval_guard ⟨0, [], fun _ => .ok ()⟩ 0 "SN"
      (some 0) (some 8) .none .none .none (fun _ => [])).1
        (by simp [intervalTooLong, resolveDates])).1
  · exact ((energy_history_interval_guard ⟨0, [], fun _ => .ok ()⟩ 0 "SN"
      (some 0) (some 7) .none .none .none (fun _ => [])).2
        (by simp [intervalTooLong, resolveDates])).1

/-!
Claim C1: backoff behaviour of the register dump loop on an error message
starting with 500.
-/

/-- Refutation of C1 as stated: the 500 branch does not halve the chunk
size; it clamps it from below at 10.  At chunk size 15 the next chunk size
is 10, not 15 // 2 = 7, and at chunk size 2 the next chunk size is 10,
which is larger than the failing chunk size. -/
theorem chunk_halving_counterexample :
    dumpStep (fun _ _ => ⟨some 0, some "500", Option.none⟩) 100
      { query_start := 0, chunk_size := 15, register_result := [] } =
      .next { query_start := 0, chunk_size := 10, register_result := [] } 3 ∧
    (10 : Nat) ≠ 15 / 2 ∧
    dumpStep (fun _ _ => ⟨some 0, some "500", Option.none⟩) 100
      { query_start := 0, chunk_size := 2, register_result := [] } =
      .next { query_start := 0, chunk_size := 10, register_result := [] } 3 ∧
    ¬ (10 : Nat) ≤ 2 := by
  refine ⟨by decide, by decide, by decide, by decide⟩

/-- C1 (amended): when a chunk read fails with an error message starting
with 500, the loop sets the chunk size to max(chunk_size // 2, 10) for the
next request (an exact halving precisely when the chunk size is at least
20); when that clamp leaves the chunk size unchanged, which happens exactly
at chunk size 10, it sleeps 30 seconds and retries with the same chunk size
and the same query start. -/
theorem chunk_backoff_amended (server : Nat → Nat → TcpsetResponse)
    (register_end : Nat) (st : DumpState)
    (hfail : (read_inverter_registers st.query_start
        (min (st.query_start + st.chunk_size) register_end)
        (server st.query_start
          (min (st.query_start + st.chunk_size) register_end))).success =
        false)
    (h500 : strStartsWith
        (read_inverter_registers st.query_start
          (min (st.query_start + st.chunk_size) register_end)
          (server st.query_start
            (min (st.query_start + st.chunk_size) register_end))).error_message
        "500" = true) :
    dumpStep server register_end st =
      (if max (st.chunk_size / 2) 10 = st.chunk_size then .next st 300
       else .next { st with chunk_size := max (st.chunk_size / 2) 10 } 3) ∧
    (20 ≤ st.chunk_size →
      dumpStep server register_end st =
        .next { st with chunk_size := st.chunk_size / 2 } 3) ∧
    (max (st.chunk_size / 2) 10 = st.chunk_size ↔ st.chunk_size = 10) := by
  have hiff : max (st.chunk_size / 2) 10 = st.chunk_size ↔
      st.chunk_size = 10 := by omega
  have hstep : dumpStep server register_end st =
      (if max (st.chunk_size / 2) 10 = st.chunk_size then .next st 300
       else .next { st with chunk_size := max (st.chunk_size / 2) 10 } 3) := by
    simp only [dumpStep]
    rw [hfail, h500]
    simp only [Bool.false_eq_true, if_false, if_true]
  refine ⟨hstep, ?_, hiff⟩
  intro h20
  rw [hstep, if_neg (by omega)]
  have : max (st.chunk_size / 2) 10 = st.chunk_size / 2 := by omega
  rw [this]

/-- Witness for C1 (amended) at chunk size 40 with a concrete offline
server: the next chunk size is 20. -/
theorem chunk_backoff_witness :
    dumpStep (fun _ _ => ⟨some 0, some "500", Option.none⟩) 3238
      { query_start := 0, chunk_size := 40, register_result := [] } =
      .next { query_start := 0, chunk_size := 20, register_result := [] } 3 :=
  (chunk_backoff_amended (fun _ _ => ⟨some 0, some "500", Option.none⟩) 3238
    { query_start := 0, chunk_size := 40, register_result := [] }
    (by decide) (by decide)).2.1 (by norm_num)

/-!
Claim C6: login returns the back object of the response, augmented on
success with userId and userLevel.
-/

/-- C6: for every server response whose back entry is a dictionary, login
returns that dictionary; when its success field is the boolean true the
returned dictionary is additionally updated with userId set to user.id and
userLevel set to user.rightlevel, and when success is the boolean false
the back dictionary is returned without these additions. -/
theorem login_returns_back (s : Session) (username password : String)
    (is_password_hashed : Bool) (server : Request → PyVal) (back : PyDict)
    (hback : pyGetItem (server (sessionPost s "newTwoLoginAPI.do"
        [("userName", .str username),
         ("password", .str (if is_password_hashed then password
            else hash_password password))])) "back" = .ok (.dict back)) :
    (dictGet back "success" = some (.bool false) →
      (login s username password is_password_hashed server).2 =
        .ok (.dict back)) ∧
    (∀ user uid lvl,
      dictGet back "success" = some (.bool true) →
      dictGet back "user" = some (.dict user) →
      dictGet user "id" = some uid →
      dictGet user "rightlevel" = some lvl →
      (login s username password is_password_hashed server).2 =
        .ok (.dict (dictUpdate back [("userId", uid), ("userLevel", lvl)]))) := by
  constructor
  · intro hsucc
    simp only [login]
    rw [hback]
    simp only [pyGetItem, hsucc, pyTruthy, Bool.false_eq_true, if_false]
  · intro user uid lvl hsucc huser hid hlvl
    simp only [login]
    rw [hback]
    simp only [pyGetItem, hsucc, huser, hid, hlvl, pyTruthy, if_true, pyUpdate]

/-- Witness for C6 at a concrete successful login response. -/
theorem login_returns_back_witness :
    (login ⟨0, [], fun _ => .ok ()⟩ "user" "pw" true
      (fun _ => .dict [("back", .dict
        [("success", .bool true),
         ("user", .dict [("id", .int 7), ("rightlevel", .int 1)])])])).2 =
      .ok (.dict
        [("success", .bool true),
         ("user", .dict [("id", .int 7), ("rightlevel", .int 1)]),
         ("userId", .int 7), ("userLevel", .int 1)]) := by
  have h := (login_returns_back ⟨0, [], fun _ => .ok ()⟩ "user" "pw" true
    (fun _ => .dict [("back", .dict
      [("success", .bool true),
       ("user", .dict [("id", .int 7), ("rightlevel", .int 1)])])])
    [("success", .bool true),
     ("user", .dict [("id", .int 7), ("rightlevel", .int 1)])]
    (by rfl)).2
    [("id", .int 7), ("rightlevel", .int 1)] (.int 7) (.int 1)
    (by rfl) (by rfl) (by rfl) (by rfl)
  exact h

/-!
Claim C7: one session per client instance, created in the constructor and
used for every request.
-/

/-- C7: both constructors create exactly one session; the OpenApiV1
constructor reuses the session of the base constructor (same identity,
same response hook), only updating its headers; and every request issued
by the embedded methods is tagged with the identity of the session the
client holds. -/
theorem single_session_invariant :
    (∀ a r, (growattApi_init a r).2 = 1) ∧
    (∀ ua tok, (openApiV1_init ua tok).2 = 1 ∧
      (openApiV1_init ua tok).1.sid =
        (growattApi_init (some ua) Option.none).1.sid ∧
      (openApiV1_init ua tok).1.responseHook = raise_for_status) ∧
    (∀ s username password hashed server,
      ((login s username password hashed server).1).all
        (fun rq => rq.sid == s.sid) = true) ∧
    (∀ s today sn sd ed tz pg lim server,
      ((min_energy_history s today sn sd ed tz pg lim server).1).all
        (fun rq => rq.sid == s.sid) = true) ∧
    (∀ s today sn sd ed tz pg lim server,
      ((sph_energy_history s today sn sd ed tz pg lim server).1).all
        (fun rq => rq.sid == s.sid) = true) ∧
    (∀ s sn pid pv server,
      ((min_write_parameter s sn pid pv server).1).all
        (fun rq => rq.sid == s.sid) = true) ∧
    (∀ s sn pid pv server,
      ((sph_write_parameter s sn pid pv server).1).all
        (fun rq => rq.sid == s.sid) = true) := by
  refine ⟨fun a r => rfl, fun ua tok => ⟨rfl, rfl, rfl⟩, ?_, ?_, ?_, ?_, ?_⟩
  · intro s username password hashed server
    simp [login, sessionPost]
  · intro s today sn sd ed tz pg lim server
    simp only [min_energy_history]
    split
    · rfl
    · simp [sessionPost]
  · intro s today sn sd ed tz pg lim server
    simp only [sph_energy_history]
    split
    · rfl
    · simp [sessionPost]
  · intro s sn pid pv server
    simp only [min_write_parameter]
    split
    · rfl
    · simp [sessionPost]
  · intro s sn pid pv server
    simp only [sph_write_parameter]
    split
    · rfl
    · simp [sessionPost]

/-!
Claim C9: the write_parameter request body carries exactly param1 through
param19.
-/

/-- Specification-side reading of the dict case: the value of param i is
the last dict entry whose position equals i, every other entry being
ignored, and the empty string when no entry assigns position i. -/
def specFromDictAcc (i : Int) (acc : String) :
    List (PKey × PyScalar) → String
  | [] => acc
  | (k, v) :: rest =>
      specFromDictAcc i
        (match keyPos k with
         | .ok p => if p = i then v.toPyStr else acc
         | .error _ => acc) rest

/-- Specification-side value of param i (1-based), from the claim: a scalar
goes to param1 only; a list fills param1..paramN in order with entries
beyond position 19 dropped; dict entries are placed at their positions with
positions outside the range ignored; every unassigned position is the
empty string. -/
def specParamValue : ParamValues → Nat → String
  | .none, _ => ""
  | .scalar v, i => if i = 1 then v.toPyStr else ""
  | .list vs, i =>
      if i ≤ 19 ∧ i - 1 < vs.length then (vs.getD (i - 1) (.str "")).toPyStr
      else ""
  | .dict entries, i => specFromDictAcc (i : Int) "" entries

/-- Specification-side request body: the serial number, the setting type,
and exactly the keys param1 through param19 with the specified values. -/
def specBody (snKey sn pid : String) (pv : ParamValues) :
    List (String × PyVal) :=
  [(snKey, .str sn), ("type", .str pid)] ++
    (List.range 19).map
      (fun k => ("param" ++ toString (k + 1), PyVal.str (specParamValue pv (k + 1))))

/-- Whether every dict key of a parameter_values argument converts with
int(); scalars and lists impose no condition. -/
def dictKeysParse : ParamValues → Bool
  | .dict entries => entries.all (fun kv => (keyPos kv.1).isOk)
  | _ => true

/-- The default entry of the parameter table is the empty string. -/
theorem getD_replicate_empty (n k : Nat) :
    (List.replicate n ("" : String)).getD k "" = "" := by
  rw [List.getD_eq_getElem?_getD, List.getElem?_replicate]
  split <;> rfl

/-- Reading an entry of a list after a single assignment. -/
theorem getD_set {α : Type} (params : List α) (j k : Nat) (v d : α) :
    (params.set j v).getD k d =
      if j = k ∧ k < params.length then v else params.getD k d := by
  rw [List.getD_eq_getElem?_getD, List.getD_eq_getElem?_getD,
    List.getElem?_set]
  by_cases hj : j = k
  · subst hj
    by_cases h : j < params.length
    · simp [h]
    · simp [h, List.getElem?_eq_none (Nat.le_of_not_lt h)]
  · simp [hj]

/-- Entry k of the table produced by the enumerate loop: position k + 1
receives the (k + 1 - i)-th list element when the enumeration starting at
i reaches it within the parameter bound, and is untouched otherwise. -/
theorem fillListLoop_getD (mx : Nat) (vs : List PyScalar) :
    ∀ (i : Nat) (params : List String) (k : Nat), 1 ≤ i →
      k < params.length →
      (fillListLoop mx i vs params).getD k "" =
        (if i ≤ k + 1 ∧ k + 1 - i < vs.length ∧ k + 1 ≤ mx then
          (vs.getD (k + 1 - i) (.str "")).toPyStr
        else params.getD k "") := by
  induction vs with
  | nil =>
      intro i params k _ _
      simp [fillListLoop]
  | cons v rest ih =>
      intro i params k hi hk
      simp only [fillListLoop]
      have hlen : (if i ≤ mx then params.set (i - 1) v.toPyStr
          else params).length = params.length := by
        split <;> simp
      rw [ih (i + 1) (if i ≤ mx then params.set (i - 1) v.toPyStr else params)
        k (by omega) (by rw [hlen]; exact hk)]
      simp only [List.length_cons]
      by_cases hA : i + 1 ≤ k + 1 ∧ k + 1 - (i + 1) < rest.length ∧ k + 1 ≤ mx
      · rw [if_pos hA, if_pos (show i ≤ k + 1 ∧ k + 1 - i < rest.length + 1 ∧
          k + 1 ≤ mx by omega)]
        rw [show k + 1 - i = (k + 1 - (i + 1)) + 1 by omega,
          List.getD_cons_succ]
      · rw [if_neg hA]
        by_cases hB : i = k + 1 ∧ k + 1 ≤ mx
        · obtain ⟨hB1, hB2⟩ := hB
          rw [if_pos (show i ≤ mx by omega), getD_set,
            if_pos ⟨by omega, hk⟩,
            if_pos (show i ≤ k + 1 ∧ k + 1 - i < rest.length + 1 ∧
              k + 1 ≤ mx by omega),
            show k + 1 - i = 0 by omega]
          rfl
        · rw [if_neg (show ¬(i ≤ k + 1 ∧ k + 1 - i < rest.length + 1 ∧
            k + 1 ≤ mx) by omega)]
          split
          · rw [getD_set, if_neg (by omega)]
          · rfl

/-- The enumerate loop of the list branch preserves the table length. -/
theorem fillListLoop_length (mx : Nat) (vs : List PyScalar) :
    ∀ (i : Nat) (params : List String),
      (fillListLoop mx i vs params).length = params.length := by
  induction vs with
  | nil => intro i params; rfl
  | cons v rest ih =>
      intro i params
      simp only [fillListLoop]
      rw [ih]
      split <;> simp

/-- Entry k of the table produced by the dict loop, provided every key
converts: the loop succeeds and each entry holds the specification-side
value folded from the entries, starting from the incoming entry. -/
theorem fillFromDict_getD (mx : Nat) (entries : List (PKey × PyScalar)) :
    ∀ (params : List String),
      (∀ kv ∈ entries, (keyPos kv.1).isOk = true) →
      mx ≤ params.length →
      ∃ final, fillFromDict mx entries params = .ok final ∧
        final.length = params.length ∧
        ∀ k, k < params.length → k + 1 ≤ mx →
          final.getD k "" =
            specFromDictAcc (k + 1 : Int) (params.getD k "") entries := by
  induction entries with
  | nil =>
      intro params _ _
      exact ⟨params, rfl, rfl, fun _ _ _ => rfl⟩
  | cons kv rest ih =>
      intro params hok hmxlen
      obtain ⟨kk, v⟩ := kv
      have hhead : (keyPos kk).isOk = true := hok ⟨kk, v⟩ (by simp)
      obtain ⟨p, hp⟩ : ∃ p, keyPos kk = .ok p := by
        cases h : keyPos kk with
        | ok p => exact ⟨p, rfl⟩
        | error e => rw [h] at hhead; simp [Except.isOk, Except.toBool] at hhead
      simp only [fillFromDict, hp]
      have hlen2 : (if 1 ≤ p ∧ p ≤ (mx : Int) then
          params.set (p - 1).toNat v.toPyStr else params).length =
          params.length := by
        split <;> simp
      obtain ⟨final, hrun, hflen, hfval⟩ := ih
        (if 1 ≤ p ∧ p ≤ (mx : Int) then
          params.set (p - 1).toNat v.toPyStr else params)
        (fun kv hm => hok kv (by simp [hm]))
        (by omega)
      refine ⟨final, hrun, by omega, fun k hk hkmx => ?_⟩
      rw [hfval k (by omega) hkmx]
      simp only [specFromDictAcc, hp]
      congr 1
      by_cases hpk : p = (k + 1 : Int)
      · rw [if_pos hpk, if_pos (by constructor <;> omega)]
        rw [getD_set, if_pos ⟨by omega, hk⟩]
      · rw [if_neg hpk]
        split
        · rw [getD_set, if_neg ?_]
          rintro ⟨h1, _⟩
          omega
        · rfl

/-- The parameter table construction meets the specification-side values
at every position, for every parameter_values shape whose dict keys
convert. -/
theorem fillParameters_spec (pv : ParamValues)
    (hkeys : dictKeysParse pv = true) :
    ∃ params, fillParameters 19 pv = .ok params ∧ params.length = 19 ∧
      ∀ k, k < 19 → params.getD k "" = specParamValue pv (k + 1) := by
  cases pv with
  | none =>
      refine ⟨List.replicate 19 "", rfl, by simp, fun k hk => ?_⟩
      rw [getD_replicate_empty]
      rfl
  | scalar v =>
      refine ⟨(List.replicate 19 "").set 0 v.toPyStr, rfl, by simp,
        fun k hk => ?_⟩
      rw [getD_set, getD_replicate_empty]
      simp only [List.length_replicate, specParamValue]
      by_cases h0 : k = 0
      · subst h0
        rw [if_pos ⟨rfl, by omega⟩, if_pos rfl]
      · rw [if_neg (by omega), if_neg (by omega)]
  | list vs =>
      refine ⟨fillFromList 19 vs, rfl, ?_, fun k hk => ?_⟩
      · rw [fillFromList, fillListLoop_length]
        simp
      · rw [fillFromList, fillListLoop_getD 19 vs 1 (List.replicate 19 "") k
          le_rfl (by simpa using hk)]
        simp only [Nat.add_sub_cancel, specParamValue]
        by_cases hc : k < vs.length
        · rw [if_pos ⟨by omega, hc, by omega⟩, if_pos ⟨by omega, by omega⟩]
        · rw [if_neg (by omega), if_neg (by omega), getD_replicate_empty]
  | dict entries =>
      obtain ⟨final, hrun, hflen, hfval⟩ := fillFromDict_getD 19 entries
        (List.replicate 19 "") (by simpa [dictKeysParse] using hkeys)
        (by simp)
      refine ⟨final, hrun, by simpa using hflen, fun k hk => ?_⟩
      rw [hfval k (by simpa using hk) (by omega), getD_replicate_empty]
      rfl

/-- C9: for every parameter_values input (None, a scalar, a list, or a
dict whose keys convert to positions), min_write_parameter and
sph_write_parameter send exactly one request whose body is the serial
number, the type, and exactly the keys param1 through param19 carrying the
specified values: a scalar in param1, list entries in order with positions
beyond 19 dropped, dict entries at their positions with positions outside
1..19 ignored, and the empty string at every unassigned position. -/
theorem write_parameter_body (s : Session) (device_sn parameter_id : String)
    (pv : ParamValues) (server mserver : Request → PyDict)
    (hkeys : dictKeysParse pv = true) :
    (min_write_parameter s device_sn parameter_id pv server).1 =
      [sessionPost s "tlxSet" (specBody "tlx_sn" device_sn parameter_id pv)] ∧
    (sph_write_parameter s device_sn parameter_id pv mserver).1 =
      [sessionPost s "mixSet" (specBody "mix_sn" device_sn parameter_id pv)] := by
  obtain ⟨params, hfill, hlen, hval⟩ := fillParameters_spec pv hkeys
  have hmap : (List.range 19).map
      (fun i => ("param" ++ toString (i + 1), PyVal.str (params.getD i ""))) =
      (List.range 19).map
        (fun k => ("param" ++ toString (k + 1),
          PyVal.str (specParamValue pv (k + 1)))) := by
    apply List.map_congr_left
    intro k hkmem
    rw [hval k (List.mem_range.mp hkmem)]
  constructor
  · simp only [min_write_parameter, hfill, specBody, hmap]
  · simp only [sph_write_parameter, hfill, specBody, hmap]

/-- Witness for C9 at a concrete dict input with an out-of-range position,
a string key and a duplicate position. -/
theorem write_parameter_body_witness :
    (min_write_parameter ⟨0, [], fun _ => .ok ()⟩ "SN" "pf_sys_year"
      (.dict [(.int 20, .str "x"), (.str "3", .str "y"), (.int 3, .str "z")])
      (fun _ => [])).1 =
      [sessionPost ⟨0, [], fun _ => .ok ()⟩ "tlxSet"
        (specBody "tlx_sn" "SN" "pf_sys_year"
          (.dict [(.int 20, .str "x"), (.str "3", .str "y"), (.int 3, .str "z")]))] :=
  (write_parameter_body ⟨0, [], fun _ => .ok ()⟩ "SN" "pf_sys_year"
    (.dict [(.int 20, .str "x"), (.str "3", .str "y"), (.int 3, .str "z")])
    (fun _ => []) (fun _ => []) (by decide)).1

/-!
Claim C5: the shape of the records produced by min_read_time_segments.
-/

/-- A placeholder segment used as the default of list reads. -/
def dfltSegment : Segment :=
  { segment_id := 0, batt_mode := Option.none, mode_name := ""
    start_time := "", end_time := "", enabled := false }

/-- Whether an optional raw time field is absent or a string. -/
def timeFieldIsStr : Option PyVal → Bool
  | Option.none => true
  | some (.str _) => true
  | some _ => false

/-- Specification-side parse of a raw H:M string: the first two
colon-separated components, both read with int(). -/
def specParseHM (s : String) : Option (Int × Int) :=
  match (pySplit s ':').get? 0, (pySplit s ':').get? 1 with
  | some p0, some p1 =>
      match pyStrToInt p0, pyStrToInt p1 with
      | some h, some m => some (h, m)
      | _, _ => Option.none
  | _, _ => Option.none

/-- Specification-side time rendering of a raw time field: 00:00 when the
field is absent, the string null, falsy or unparsable; otherwise the two
parsed components printed as 02d fields around a colon. -/
def specTimeOfOpt (o : Option PyVal) : String :=
  match o with
  | Option.none => "00:00"
  | some v =>
      if pyStrEq v "null" || !pyTruthy v then "00:00"
      else
        match v with
        | .str s =>
            match specParseHM s with
            | some hm => fmt02 hm.1 ++ ":" ++ fmt02 hm.2
            | Option.none => "00:00"
        | _ => "00:00"

/-- Specification-side enabled flag: true exactly when the raw switch
field (default 0) parses with int() to the integer 1. -/
def specEnabled (settings : PyDict) (i : Nat) : Bool :=
  match pyToInt
      (dictGetD settings ("forcedStopSwitch" ++ toString i) (.int 0)) with
  | some n => n == 1
  | Option.none => false

/-- Specification-side segment record for index i. -/
def specSegment (settings : PyDict) (i : Nat) : Segment :=
  { segment_id := i
    batt_mode := parseBattMode settings i
    mode_name :=
      match parseBattMode settings i with
      | some 0 => "Load First"
      | some 1 => "Battery First"
      | some 2 => "Grid First"
      | _ => "Unknown"
    start_time := specTimeOfOpt (dictGet settings ("forcedTimeStart" ++ toString i))
    end_time := specTimeOfOpt (dictGet settings ("forcedTimeStop" ++ toString i))
    enabled := specEnabled settings i }

/-- Whether every present time field of segments 1..9 is a string. -/
def stringTimeFields (settings : PyDict) : Bool :=
  (List.range 9).all (fun k =>
    timeFieldIsStr (dictGet settings ("forcedTimeStart" ++ toString (k + 1))) &&
    timeFieldIsStr (dictGet settings ("forcedTimeStop" ++ toString (k + 1))))

/-- A two-character string of decimal digits. -/
def twoDigitStr (s : String) : Bool :=
  s.length == 2 && (s.data.getD 0 'x').isDigit && (s.data.getD 1 'x').isDigit

/-- Refutation of C5 as stated: the parsable raw field 123:4 survives the
formatter as 123:04, which is not an HH:MM string, and a present, truthy
non-string raw field crashes the parse with AttributeError instead of
producing 9 records. -/
theorem time_segments_counterexample :
    ((min_read_time_segments
        [("forcedTimeStart1", PyVal.str "123:4")]).toOption.getD []).length = 9 ∧
    (((min_read_time_segments
        [("forcedTimeStart1", PyVal.str "123:4")]).toOption.getD []).getD 0
        dfltSegment).start_time = "123:04" ∧
    isHHMM "123:04" = false ∧
    min_read_time_segments [("forcedTimeStart1", PyVal.int 530)] =
      .error .attributeError := by
  refine ⟨by decide, by decide, by decide, by rfl⟩

/-- The embedded time-field formatter agrees with the specification-side
rendering whenever the raw field is absent or a string. -/
theorem formatTimeField_spec (o : Option PyVal)
    (ho : timeFieldIsStr o = true) :
    formatTimeField (o.getD (.str "0:0")) = .ok (specTimeOfOpt o) := by
  cases o with
  | none => rfl
  | some v =>
      cases v with
      | str s =>
          simp only [Option.getD, formatTimeField, specTimeOfOpt]
          cases hc : (pyStrEq (.str s) "null" || !pyTruthy (.str s)) with
          | true =>
              simp only [hc, if_true]
              rfl
          | false =>
              simp only [hc, Bool.false_eq_true, if_false]
              unfold specParseHM
              cases h0 : (pySplit s ':').get? 0 with
              | none => simp [h0]
              | some p0 =>
                  cases h1 : (pySplit s ':').get? 1 with
                  | none => simp [h0, h1]
                  | some p1 =>
                      simp only [h0, h1]
                      cases hh : pyStrToInt p0 with
                      | none => simp [hh]
                      | some hv =>
                          cases hm : pyStrToInt p1 with
                          | none => simp [hh, hm]
                          | some mv => simp [hh, hm]
      | none => simp [timeFieldIsStr] at ho
      | bool b => simp [timeFieldIsStr] at ho
      | int n => simp [timeFieldIsStr] at ho
      | list xs => simp [timeFieldIsStr] at ho
      | dict fields => simp [timeFieldIsStr] at ho

/-- The embedded enabled extraction agrees with the specification-side
flag on every raw value. -/
theorem parseEnabled_spec (settings : PyDict) (i : Nat) :
    parseEnabled settings i = specEnabled settings i := by
  unfold parseEnabled specEnabled
  cases hv : dictGetD settings ("forcedStopSwitch" ++ toString i) (.int 0) with
  | str t =>
      by_cases ht : t = "null"
      · subst ht
        decide
      · simp [pyStrEq, ht]
  | none => rfl
  | bool b => rfl
  | int n => rfl
  | list xs => rfl
  | dict fields => rfl

/-- The embedded mode_names lookup agrees with the specification-side
mapping on every batt_mode value. -/
theorem modeName_spec (bm : Option Int) :
    modeName bm =
      (match bm with
       | some 0 => "Load First"
       | some 1 => "Battery First"
       | some 2 => "Grid First"
       | _ => "Unknown") := by
  unfold modeName
  cases bm with
  | none => rfl
  | some n =>
      rcases n with k | k
      · rcases k with _ | _ | _ | k <;> rfl
      · rfl

/-- One segment read agrees with the specification-side record whenever
the two raw time fields are absent or strings. -/
theorem readTimeSegment_spec (settings : PyDict) (i : Nat)
    (hs : timeFieldIsStr
      (dictGet settings ("forcedTimeStart" ++ toString i)) = true)
    (he : timeFieldIsStr
      (dictGet settings ("forcedTimeStop" ++ toString i)) = true) :
    readTimeSegment settings i = .ok (specSegment settings i) := by
  unfold readTimeSegment
  rw [show dictGetD settings ("forcedTimeStart" ++ toString i) (.str "0:0") =
      (dictGet settings ("forcedTimeStart" ++ toString i)).getD (.str "0:0")
      from rfl,
    show dictGetD settings ("forcedTimeStop" ++ toString i) (.str "0:0") =
      (dictGet settings ("forcedTimeStop" ++ toString i)).getD (.str "0:0")
      from rfl,
    formatTimeField_spec _ hs, formatTimeField_spec _ he]
  dsimp only
  rw [parseEnabled_spec, modeName_spec]
  rfl

/-- The segment loop yields the specification-side records for every index
list whose raw time fields are absent or strings. -/
theorem segmentsLoop_spec (settings : PyDict) (l : List Nat)
    (h : ∀ i ∈ l,
      timeFieldIsStr
        (dictGet settings ("forcedTimeStart" ++ toString i)) = true ∧
      timeFieldIsStr
        (dictGet settings ("forcedTimeStop" ++ toString i)) = true) :
    segmentsLoop settings l = .ok (l.map (specSegment settings)) := by
  induction l with
  | nil => rfl
  | cons i rest ih =>
      obtain ⟨hs, he⟩ := h i (by simp)
      simp only [segmentsLoop, readTimeSegment_spec settings i hs he,
        ih (fun j hj => h j (by simp [hj])), List.map_cons]

/-- Both 02d fields of numbers between 0 and 99 are two decimal digits. -/
theorem fmt02_twoDigit_nat : ∀ n : Nat, n < 100 →
    twoDigitStr (fmt02 (n : Int)) = true := by decide

/-- The 02d field of an integer between 0 and 99 is two decimal digits. -/
theorem fmt02_twoDigit (n : Int) (h0 : 0 ≤ n) (h99 : n ≤ 99) :
    twoDigitStr (fmt02 n) = true := by
  have : n = (n.toNat : Int) := (Int.toNat_of_nonneg h0).symm
  rw [this]
  exact fmt02_twoDigit_nat n.toNat (by omega)

/-- Gluing two two-digit fields around a colon yields an HH:MM string. -/
theorem isHHMM_of_twoDigit (a b : String) (ha : twoDigitStr a = true)
    (hb : twoDigitStr b = true) : isHHMM (a ++ ":" ++ b) = true := by
  unfold twoDigitStr at ha hb
  simp only [Bool.and_eq_true, beq_iff_eq] at ha hb
  obtain ⟨⟨hal, ha0⟩, ha1⟩ := ha
  obtain ⟨⟨hbl, hb0⟩, hb1⟩ := hb
  have hal2 : a.data.length = 2 := hal
  have hbl2 : b.data.length = 2 := hbl
  obtain ⟨a0, a1, hae⟩ := List.length_eq_two.mp hal2
  obtain ⟨b0, b1, hbe⟩ := List.length_eq_two.mp hbl2
  rw [hae] at ha0 ha1
  rw [hbe] at hb0 hb1
  simp only [List.getD_cons_zero, List.getD_cons_succ] at ha0 ha1 hb0 hb1
  have hdata : (a ++ ":" ++ b).data = [a0, a1, ':', b0, b1] := by
    rw [String.data_append, String.data_append, hae, hbe]
    rfl
  have hlen : (a ++ ":" ++ b).length = 5 := by
    show (a ++ ":" ++ b).data.length = 5
    rw [hdata]
    rfl
  unfold isHHMM
  rw [hdata, hlen]
  simp only [List.getD_cons_zero, List.getD_cons_succ]
  simp [ha0, ha1, hb0, hb1]

/-- Every specification-side time string is either the default 00:00 or
the two parsed components of the raw field printed as 02d fields. -/
theorem specTimeOfOpt_shape (o : Option PyVal) :
    specTimeOfOpt o = "00:00" ∨
    ∃ s h m, o = some (.str s) ∧ specParseHM s = some (h, m) ∧
      specTimeOfOpt o = fmt02 h ++ ":" ++ fmt02 m := by
  cases o with
  | none => left; rfl
  | some v =>
      cases v with
      | str s =>
          unfold specTimeOfOpt
          cases hc : (pyStrEq (.str s) "null" || !pyTruthy (.str s)) with
          | true => left; simp [hc]
          | false =>
              simp only [hc, Bool.false_eq_true, if_false]
              cases hp : specParseHM s with
              | none => left; rfl
              | some hm =>
                  right
                  exact ⟨s, hm.1, hm.2, rfl, by rw [hp], rfl⟩
      | none => left; rfl
      | bool b => left; unfold specTimeOfOpt; cases b <;> rfl
      | int n =>
          left
          unfold specTimeOfOpt
          by_cases hz : n = 0
          · subst hz; rfl
          · simp [pyStrEq, pyTruthy, hz]
      | list xs => left; unfold specTimeOfOpt; cases xs <;> rfl
      | dict fields => left; unfold specTimeOfOpt; cases fields <;> rfl

/-- C5 (amended): for every settings dictionary whose present time fields
are strings, min_read_time_segments returns exactly 9 records carrying
segment ids 1 through 9 in order, with each field as specified: start and
end times are the parsed raw components printed as 02d fields (the default
00:00 on an absent, null, falsy or unparsable field), which is an HH:MM
string whenever both components lie between 0 and 99; enabled is true
exactly when the raw switch field parses to the integer 1; and mode_name
maps batt_mode 0/1/2 to Load First/Battery First/Grid First and anything
else to Unknown. -/
theorem time_segments_amended (settings : PyDict)
    (hstr : stringTimeFields settings = true) :
    min_read_time_segments settings =
      .ok ((List.range 9).map (fun k => specSegment settings (k + 1))) ∧
    ((List.range 9).map (fun k => specSegment settings (k + 1))).length = 9 ∧
    (∀ k, k < 9 →
      (((List.range 9).map (fun k => specSegment settings (k + 1))).getD k
        dfltSegment).segment_id = k + 1) ∧
    (∀ h m : Int, 0 ≤ h → h ≤ 99 → 0 ≤ m → m ≤ 99 →
      isHHMM (fmt02 h ++ ":" ++ fmt02 m) = true) ∧
    isHHMM "00:00" = true ∧
    (∀ key, specTimeOfOpt (dictGet settings key) = "00:00" ∨
      ∃ s h m, dictGet settings key = some (.str s) ∧
        specParseHM s = some (h, m) ∧
        specTimeOfOpt (dictGet settings key) = fmt02 h ++ ":" ++ fmt02 m) := by
  refine ⟨?_, by simp, ?_, ?_, by decide, fun key => specTimeOfOpt_shape _⟩
  · unfold min_read_time_segments
    apply segmentsLoop_spec
    intro i hi
    obtain ⟨k, hk, rfl⟩ := List.mem_map.mp hi
    have hall := List.all_eq_true.mp hstr k hk
    simp only [Bool.and_eq_true] at hall
    exact hall
  · intro k hk
    rw [List.getD_eq_getElem?_getD, List.getElem?_map,
      List.getElem?_range hk]
    rfl
  · intro h m h0 h99 m0 m99
    exact isHHMM_of_twoDigit _ _ (fmt02_twoDigit h h0 h99)
      (fmt02_twoDigit m m0 m99)

/-- Witness for C5 (amended) at a concrete settings dictionary. -/
theorem time_segments_amended_witness :
    min_read_time_segments
      [("forcedTimeStart1", PyVal.str "5:30"), ("time1Mode", PyVal.int 1),
       ("forcedStopSwitch1", PyVal.str "1")] =
      .ok ((List.range 9).map (fun k => specSegment
        [("forcedTimeStart1", PyVal.str "5:30"), ("time1Mode", PyVal.int 1),
         ("forcedStopSwitch1", PyVal.str "1")] (k + 1))) :=
  (time_segments_amended
    [("forcedTimeStart1", PyVal.str "5:30"), ("time1Mode", PyVal.int 1),
     ("forcedStopSwitch1", PyVal.str "1")] (by decide)).1

/-!
Claim C10: the shape of hash_password.
-/

/-- The replacement loop of hash_password preserves the digest length. -/
theorem replaceZeroLoop_length (idxs : List Nat) :
    ∀ cs : List Char, (replaceZeroLoop cs idxs).length = cs.length := by
  induction idxs with
  | nil => intro cs; rfl
  | cons i rest ih =>
      intro cs
      simp only [replaceZeroLoop]
      rw [ih]
      split <;> simp

/-- Character j of the digest after the replacement loop over a duplicate
free index list: the letter c when j is visited and held the digit 0, the
original character otherwise. -/
theorem replaceZeroLoop_getD (idxs : List Nat) :
    ∀ (cs : List Char) (j : Nat), idxs.Nodup → j < cs.length →
      (replaceZeroLoop cs idxs).getD j 'x' =
        (if j ∈ idxs ∧ cs.getD j 'x' = '0' then 'c' else cs.getD j 'x') := by
  induction idxs with
  | nil =>
      intro cs j _ _
      simp [replaceZeroLoop]
  | cons i rest ih =>
      intro cs j hnd hj
      have hnd2 : rest.Nodup := (List.nodup_cons.mp hnd).2
      have hinotin : i ∉ rest := (List.nodup_cons.mp hnd).1
      simp only [replaceZeroLoop]
      have hlen2 : (if cs.getD i 'x' = '0' then cs.set i 'c' else cs).length =
          cs.length := by split <;> simp
      rw [ih (if cs.getD i 'x' = '0' then cs.set i 'c' else cs) j hnd2
        (by omega)]
      by_cases hji : j = i
      · subst hji
        rw [if_neg (fun hc => hinotin hc.1)]
        by_cases hz : cs.getD j 'x' = '0'
        · rw [if_pos hz, if_pos ⟨by simp, hz⟩, getD_set,
            if_pos ⟨rfl, hj⟩]
        · rw [if_neg hz, if_neg (fun hc => hz hc.2)]
      · have hsame : (if cs.getD i 'x' = '0' then cs.set i 'c' else cs).getD
            j 'x' = cs.getD j 'x' := by
          split
          · rw [getD_set, if_neg (fun hc => hji hc.1.symm)]
          · rfl
        rw [hsame]
        by_cases hjm : j ∈ rest ∧ cs.getD j 'x' = '0'
        · rw [if_pos hjm, if_pos ⟨List.mem_cons_of_mem i hjm.1, hjm.2⟩]
        · rw [if_neg hjm, if_neg ?_]
          rintro ⟨hmem, hz⟩
          rcases List.mem_cons.mp hmem with h | h
          · exact hji h
          · exact hjm ⟨h, hz⟩

/-- Membership in the Python range(0, 32, 2): the even indices below 32. -/
theorem mem_pyRangeStep2_32 (j : Nat) :
    j ∈ pyRangeStep2 32 ↔ j % 2 = 0 ∧ j < 32 := by
  simp only [pyRangeStep2, List.mem_map, List.mem_range]
  constructor
  · rintro ⟨k, hk, rfl⟩
    omega
  · rintro ⟨h2, h32⟩
    exact ⟨j / 2, by omega, by omega⟩

/-- The Python range(0, n, 2) has no duplicates. -/
theorem pyRangeStep2_nodup (n : Nat) : (pyRangeStep2 n).Nodup :=
  List.Nodup.map (fun a b h => by omega) (List.nodup_range _)

/-- The MD5 digest is 16 bytes long. -/
theorem md5Bytes_length (msg : List Nat) : (md5Bytes msg).length = 16 := by
  simp [md5Bytes, wordBytesLE]

/-- Every little-endian word byte is below 256. -/
theorem wordBytesLE_lt (w : Nat) : ∀ x ∈ wordBytesLE w, x < 256 := by
  intro x hx
  simp only [wordBytesLE, List.mem_cons, List.not_mem_nil, or_false] at hx
  rcases hx with h | h | h | h <;> rw [h] <;> exact Nat.mod_lt _ (by norm_num)

/-- Every MD5 digest byte is below 256. -/
theorem md5Bytes_lt (msg : List Nat) (k : Nat) (hk : k < 16) :
    (md5Bytes msg).getD k 0 < 256 := by
  have hmem : (md5Bytes msg).getD k 0 ∈ md5Bytes msg := by
    rw [List.getD_eq_getElem (md5Bytes msg) 0 (by rw [md5Bytes_length]; omega)]
    exact List.getElem_mem _
  rw [md5Bytes] at hmem
  simp only [List.mem_append] at hmem
  rcases hmem with ((h | h) | h) | h <;> exact wordBytesLE_lt _ _ h

/-- The hex rendering is two characters per byte. -/
theorem bytesToHexChars_length (bs : List Nat) :
    (bytesToHexChars bs).length = 2 * bs.length := by
  induction bs with
  | nil => rfl
  | cons b rest ih =>
      simp only [bytesToHexChars, List.length_cons, ih]
      omega

/-- The even-position characters of the hex rendering are the high nibbles
of the corresponding bytes. -/
theorem bytesToHexChars_getD_even (bs : List Nat) :
    ∀ k, k < bs.length →
      (bytesToHexChars bs).getD (2 * k) 'x' = hexDigit (bs.getD k 0 / 16) := by
  induction bs with
  | nil =>
      intro k hk
      simp at hk
  | cons b rest ih =>
      intro k hk
      cases k with
      | zero => rfl
      | succ k2 =>
          rw [show 2 * (k2 + 1) = (2 * k2) + 1 + 1 by omega]
          simp only [bytesToHexChars, List.getD_cons_succ]
          exact ih k2 (by simpa using hk)

/-- A hexadecimal digit is the character 0 exactly for the nibble 0. -/
theorem hexDigit_eq_zero_iff : ∀ m, m < 16 → (hexDigit m = '0' ↔ m = 0) := by
  decide

/-- C10: hash_password yields a 32-character string which is the MD5 hex
digest of the UTF-8 password in which every digit 0 at an even index is
replaced by the letter c; consequently no even-indexed character of the
result is the digit 0, and the positions that differ from the plain digest
are exactly the even positions of digest bytes below 0x10. -/
theorem hash_password_spec (pw : String) :
    (hash_password pw).length = 32 ∧
    (∀ j, j < 32 →
      (hash_password pw).data.getD j 'x' =
        (if j % 2 = 0 ∧ (md5HexChars pw).getD j 'x' = '0' then 'c'
         else (md5HexChars pw).getD j 'x')) ∧
    (∀ j, j < 32 → j % 2 = 0 →
      (hash_password pw).data.getD j 'x' ≠ '0') ∧
    (∀ k, k < 16 →
      ((hash_password pw).data.getD (2 * k) 'x' ≠
          (md5HexChars pw).getD (2 * k) 'x' ↔
        (md5Bytes (strBytes pw)).getD k 0 < 16)) := by
  have hl : (md5HexChars pw).length = 32 := by
    rw [md5HexChars, bytesToHexChars_length, md5Bytes_length]
  have hdata : (hash_password pw).data =
      replaceZeroLoop (md5HexChars pw) (pyRangeStep2 32) := by
    rw [hash_password]
    simp only [hl]
  have hlen : (hash_password pw).length = 32 := by
    show (hash_password pw).data.length = 32
    rw [hdata, replaceZeroLoop_length, hl]
  have hchar : ∀ j, j < 32 →
      (hash_password pw).data.getD j 'x' =
        (if j % 2 = 0 ∧ (md5HexChars pw).getD j 'x' = '0' then 'c'
         else (md5HexChars pw).getD j 'x') := by
    intro j hj
    rw [hdata, replaceZeroLoop_getD (pyRangeStep2 32) (md5HexChars pw) j
      (pyRangeStep2_nodup 32) (by omega)]
    by_cases hc : j % 2 = 0 ∧ (md5HexChars pw).getD j 'x' = '0'
    · rw [if_pos ⟨(mem_pyRangeStep2_32 j).mpr ⟨hc.1, hj⟩, hc.2⟩, if_pos hc]
    · rw [if_neg ?_, if_neg hc]
      rintro ⟨hmem, hz⟩
      exact hc ⟨((mem_pyRangeStep2_32 j).mp hmem).1, hz⟩
  refine ⟨hlen, hchar, ?_, ?_⟩
  · intro j hj heven
    rw [hchar j hj]
    by_cases hz : (md5HexChars pw).getD j 'x' = '0'
    · rw [if_pos ⟨heven, hz⟩]
      decide
    · rw [if_neg (fun hc => hz hc.2)]
      exact hz
  · intro k hk
    have hb : (md5Bytes (strBytes pw)).getD k 0 < 256 := md5Bytes_lt _ k hk
    have hdig : (md5HexChars pw).getD (2 * k) 'x' =
        hexDigit ((md5Bytes (strBytes pw)).getD k 0 / 16) := by
      rw [md5HexChars, bytesToHexChars_getD_even _ k
        (by rw [md5Bytes_length]; omega)]
    have hzero : (md5HexChars pw).getD (2 * k) 'x' = '0' ↔
        (md5Bytes (strBytes pw)).getD k 0 < 16 := by
      rw [hdig, hexDigit_eq_zero_iff _ (by omega)]
      omega
    rw [hchar (2 * k) (by omega)]
    by_cases hz : (md5HexChars pw).getD (2 * k) 'x' = '0'
    · rw [if_pos ⟨by omega, hz⟩]
      constructor
      · intro _
        exact hzero.mp hz
      · intro _
        rw [hz]
        decide
    · rw [if_neg (fun hc => hz hc.2)]
      constructor
      · intro hne
        exact absurd rfl hne
      · intro hlt
        exact absurd (hzero.mpr hlt) hz

/-- Witness for C10: the hash of the empty password, with its even-index
zeros replaced, has length 32 and no leading zero digit. -/
theorem hash_password_spec_witness :
    (hash_password "").length = 32 ∧
    (hash_password "").data.getD 0 'x' ≠ '0' :=
  ⟨(hash_password_spec "").1,
   (hash_password_spec "").2.2.1 0 (by norm_num) (by norm_num)⟩

/-!
Claim C2: termination and coverage of the register dump loop under an
always-successful server.  The loop does terminate, and ranges with
register_start < register_end are fully covered; but a range whose two
bounds are equal never enters the while loop, so its register is never
read at all.
-/

/-- A server against which every read_inverter_registers call succeeds and
returns one value per register of the requested inclusive chunk. -/
def goodServer (server : Nat → Nat → TcpsetResponse) : Prop :=
  ∀ s e, (server s e).result = some 1 ∧
    e + 1 - s ≤ (pySplit ((server s e).param1.getD "") '-').length

/-- Lookup in the zip of an address range with a sufficiently long value
list finds every address of the range. -/
theorem natDictGet_zip_range (n : Nat) :
    ∀ (s addr : Nat) (parts : List String), s ≤ addr → addr < s + n →
      n ≤ parts.length →
      (natDictGet ((List.range' s n).zip parts) addr).isSome = true := by
  induction n with
  | zero =>
      intro s addr parts h1 h2 _
      omega
  | succ m ih =>
      intro s addr parts h1 h2 hp
      obtain ⟨p, rest, rfl⟩ : ∃ p rest, parts = p :: rest := by
        cases parts with
        | nil => simp at hp
        | cons p rest => exact ⟨p, rest, rfl⟩
      rw [List.range'_succ]
      simp only [List.zip_cons_cons, natDictGet]
      by_cases hsa : s = addr
      · rw [if_pos hsa]
        rfl
      · rw [if_neg hsa]
        exact ih (s + 1) addr rest (by omega) (by omega) (by simpa using hp)

/-- A successful chunk read covers every address of the inclusive range. -/
theorem read_registers_covers (server : Nat → Nat → TcpsetResponse)
    (hs : goodServer server) (s e addr : Nat) (h1 : s ≤ addr)
    (h2 : addr ≤ e) :
    (read_inverter_registers s e (server s e)).success = true ∧
    (natDictGet (read_inverter_registers s e (server s e)).register
      addr).isSome = true := by
  obtain ⟨hres, hparts⟩ := hs s e
  have hsucc : (read_inverter_registers s e (server s e)).success = true := by
    simp only [read_inverter_registers, hres]
    rfl
  refine ⟨hsucc, ?_⟩
  simp only [read_inverter_registers, hres]
  simp only [show ((some 1 : Option Int) == some 1) = true from rfl, if_true]
  exact natDictGet_zip_range (e + 1 - s) s addr _ h1 (by omega) hparts

/-- A key is present after a single assignment exactly when it is the
assigned key or was present before. -/
theorem natDictGet_set_isSome (d : List (Nat × String)) (k : Nat)
    (v : String) (k2 : Nat) :
    (natDictGet (natDictSet d k v) k2).isSome = true ↔
      k2 = k ∨ (natDictGet d k2).isSome = true := by
  induction d with
  | nil =>
      simp only [natDictSet, natDictGet]
      by_cases h : k = k2
      · rw [if_pos h]
        constructor
        · intro _
          exact Or.inl h.symm
        · intro _
          rfl
      · rw [if_neg h]
        constructor
        · intro hh
          exact absurd hh (by simp [natDictGet])
        · rintro (hh | hh)
          · exact absurd hh.symm h
          · exact absurd hh (by simp [natDictGet])
  | cons kv rest ih =>
      obtain ⟨k0, v0⟩ := kv
      simp only [natDictSet]
      by_cases h0 : k0 = k
      · rw [if_pos h0]
        subst h0
        simp only [natDictGet]
        by_cases h2 : k0 = k2
        · rw [if_pos h2, if_pos h2]
          constructor
          · intro _
            exact Or.inl h2.symm
          · intro _
            rfl
        · rw [if_neg h2, if_neg h2]
          constructor
          · intro hh
            exact Or.inr hh
          · rintro (hh | hh)
            · exact absurd hh.symm h2
            · exact hh
      · rw [if_neg h0]
        simp only [natDictGet]
        by_cases h2 : k0 = k2
        · rw [if_pos h2, if_pos h2]
          constructor
          · intro _
            exact Or.inr rfl
          · intro _
            rfl
        · rw [if_neg h2, if_neg h2]
          exact ih

/-- A key is present after a dict update exactly when it is present in the
update items or was present before. -/
theorem natDictGet_update_isSome (items : List (Nat × String)) :
    ∀ (d : List (Nat × String)) (k : Nat),
      (natDictGet (natDictUpdate d items) k).isSome = true ↔
        (natDictGet items k).isSome = true ∨
          (natDictGet d k).isSome = true := by
  induction items with
  | nil =>
      intro d k
      simp [natDictUpdate, natDictGet]
  | cons kv rest ih =>
      intro d k
      obtain ⟨ik, iv⟩ := kv
      show (natDictGet (natDictUpdate (natDictSet d ik iv) rest) k).isSome =
        true ↔ _
      rw [ih]
      simp only [natDictGet]
      by_cases hik : ik = k
      · simp [if_pos hik, natDictGet_set_isSome, hik.symm]
      · simp only [if_neg hik]
        rw [natDictGet_set_isSome]
        constructor
        · rintro (h | h | h)
          · exact Or.inl h
          · exact absurd h.symm hik
          · exact Or.inr h
        · rintro (h | h)
          · exact Or.inl h
          · exact Or.inr (Or.inr h)

/-- Under an always-successful server the while loop of one register range
terminates within register_end - query_start + 1 iterations, keeps the
error variable and all previously read registers, and reads every address
from query_start to register_end whenever it enters the loop at all. -/
theorem runRange_success (server : Nat → Nat → TcpsetResponse)
    (hs : goodServer server) (register_end : Nat) :
    ∀ (fuel : Nat) (st : DumpState) (err : Option String),
      1 ≤ st.chunk_size →
      register_end - st.query_start < fuel →
      ∃ stF, runRange server register_end fuel st err = some (stF, err) ∧
        (∀ k, (natDictGet st.register_result k).isSome = true →
          (natDictGet stF.register_result k).isSome = true) ∧
        (∀ addr, st.query_start ≤ addr → addr ≤ register_end →
          st.query_start < register_end →
          (natDictGet stF.register_result addr).isSome = true) := by
  intro fuel
  induction fuel with
  | zero =>
      intro st err _ hf
      omega
  | succ fuel ih =>
      intro st err hcs hf
      by_cases hguard : st.query_start < register_end
      · have hread := read_registers_covers server hs st.query_start
          (min (st.query_start + st.chunk_size) register_end)
        have hsucc := (hread st.query_start le_rfl (by omega)).1
        have hstep : dumpStep server register_end st =
            .next
              { st with
                register_result := natDictUpdate st.register_result
                  (read_inverter_registers st.query_start
                    (min (st.query_start + st.chunk_size) register_end)
                    (server st.query_start
                      (min (st.query_start + st.chunk_size) register_end))).register
                query_start :=
                  min (st.query_start + st.chunk_size) register_end } 1 := by
          simp only [dumpStep, hsucc, if_true]
        have hqe1 : st.query_start + 1 ≤
            min (st.query_start + st.chunk_size) register_end := by omega
        obtain ⟨stF, hrun, hkeep, hcover⟩ := ih
          { st with
            register_result := natDictUpdate st.register_result
              (read_inverter_registers st.query_start
                (min (st.query_start + st.chunk_size) register_end)
                (server st.query_start
                  (min (st.query_start + st.chunk_size) register_end))).register
            query_start := min (st.query_start + st.chunk_size) register_end }
          err hcs
          (show register_end - min (st.query_start + st.chunk_size)
            register_end < fuel by omega)
        refine ⟨stF, ?_, ?_, ?_⟩
        · simp only [runRange, if_pos hguard, hstep]
          exact hrun
        · intro k hk
          apply hkeep k
          show (natDictGet (natDictUpdate st.register_result
            (read_inverter_registers st.query_start
              (min (st.query_start + st.chunk_size) register_end)
              (server st.query_start
                (min (st.query_start + st.chunk_size) register_end))).register)
            k).isSome = true
          rw [natDictGet_update_isSome]
          exact Or.inr hk
        · intro addr ha1 ha2 _
          by_cases hle : addr ≤ min (st.query_start + st.chunk_size) register_end
          · apply hkeep addr
            show (natDictGet (natDictUpdate st.register_result
              (read_inverter_registers st.query_start
                (min (st.query_start + st.chunk_size) register_end)
                (server st.query_start
                  (min (st.query_start + st.chunk_size) register_end))).register)
              addr).isSome = true
            rw [natDictGet_update_isSome]
            exact Or.inl (hread addr ha1 hle).2
          · apply hcover addr
            · show min (st.query_start + st.chunk_size) register_end ≤ addr
              omega
            · exact ha2
            · show min (st.query_start + st.chunk_size) register_end <
                register_end
              omega
      · refine ⟨st, ?_, fun k hk => hk, fun addr h1 h2 h3 => absurd h3 hguard⟩
        simp only [runRange, if_neg hguard]

/-- Under an always-successful server the whole register dump terminates
with the error variable still clear, keeps all previously read registers,
and covers every address of every range whose start is strictly below its
end. -/
theorem runDump_coverage (server : Nat → Nat → TcpsetResponse)
    (hs : goodServer server) :
    ∀ (ranges : List (Nat × Nat)) (fuel : Nat) (reg : List (Nat × String))
      (err : Option String),
      (∀ r ∈ ranges, r.2 - r.1 < fuel) →
      ∃ res, runDump server fuel ranges reg err = some (res, err) ∧
        (∀ k, (natDictGet reg k).isSome = true →
          (natDictGet res k).isSome = true) ∧
        (∀ r ∈ ranges, r.1 < r.2 → ∀ addr, r.1 ≤ addr → addr ≤ r.2 →
          (natDictGet res addr).isSome = true) := by
  intro ranges
  induction ranges with
  | nil =>
      intro fuel reg err _
      exact ⟨reg, rfl, fun k hk => hk, fun r hr => absurd hr (by simp)⟩
  | cons range rest ih =>
      intro fuel reg err hfuel
      obtain ⟨a, b⟩ := range
      obtain ⟨stF, hrun, hkeep, hcover⟩ := runRange_success server hs b fuel
        { query_start := a, chunk_size := b - a + 1, register_result := reg }
        err (show (1 : Nat) ≤ b - a + 1 by omega)
        (hfuel (a, b) (by simp))
      obtain ⟨res, hrest, hkeep2, hcover2⟩ := ih fuel stF.register_result err
        (fun r hr => hfuel r (by simp [hr]))
      refine ⟨res, ?_, ?_, ?_⟩
      · simp only [runDump, hrun]
        exact hrest
      · intro k hk
        exact hkeep2 k (hkeep k hk)
      · intro r hr hlt addr h1 h2
        rcases List.mem_cons.mp hr with h | h
        · subst h
          exact hkeep2 addr (hcover addr h1 h2 hlt)
        · exact hcover2 r h hlt addr h1 h2

/-- C2: the configured range (229, 229) is skipped entirely.  With a
server that always succeeds and returns one value per requested register,
running the dump loop on the single-register range (229, 229), which is
one of the configured register_ranges, terminates with an empty
register_result, register 229 having never been requested; the
neighbouring multi-register range (201, 203) by contrast is fully read.
So on termination register_result does not contain an entry for every
register address of every configured range. -/
theorem register_dump_skips_single_register_range :
    (229, 229) ∈ register_ranges ∧
    runDump constSuccessServer 300 [(229, 229)] [] Option.none =
      some ([], Option.none) ∧
    natDictGet [] 229 = (Option.none : Option String) ∧
    runDump constSuccessServer 300 [(201, 203)] [] Option.none =
      some ([(201, "7"), (202, "7"), (203, "7")], Option.none) := by
  refine ⟨by decide, by rfl, by rfl, by rfl⟩

end Growatt
